import Mathlib

/-!
Verification of the `guess-game` settlement and revenue-share ledger engine.

Part A is a shallow embedding of the Solidity contract
`contracts/src/GuessGame.sol`: its storage is the structure `GuessGame.St`,
each external function becomes a pure Lean function
`St → ... → Except Err (St × ret)` (a Solidity `revert` is `Except.error`, in
which case the transaction leaves the state unchanged), and `block.timestamp`
is an explicit `now` argument.  `uint256` values are modelled as `Nat`
(Solidity 0.8 checked arithmetic reverts on overflow instead of wrapping; no
claim below depends on values near `2^256`).  The `uint16` bps fields are
stored as `Nat` and the explicit `uint16(...)` down-casts of the source are
modelled as `% 65536`.  Solidity mappings are total functions returning the
zero value of their codomain, exactly as EVM storage does; existence checks
(`_requireGameExists`, `owner != address(0)`) are translated literally.
Addresses are `Nat`, with `0` playing the role of `address(0)`.

Part B is a shallow embedding of the TypeScript revenue-share distribution
`distributeRevenueGraph` from `src/game/routes.ts` together with
`getOutgoingShares` from `src/coordination/state.ts`.  The recursive DFS of
the source is modelled with an explicit fuel parameter; instead of mutating a
`paid` record the model emits the list of `paid[node] += amt` events in the
order the source performs them (the record is their aggregation).
-/

namespace GuessGame

/-- Addresses, with `0` standing for Solidity's `address(0)`. -/
abbrev Addr := Nat

/-- `IGuessDeals.DealStatus` (`Pending` is the enum's zero value, hence the
default of an unset storage slot). -/
inductive DealStatus
  | Pending
  | Accepted
  | Rejected
  | Cancelled
deriving DecidableEq, Repr

/-- Storage struct `GameInternal`. -/
structure GameInternal where
  guessFee : Nat
  publicKey : String
  pot : Nat
  active : Bool
deriving DecidableEq, Repr

/-- Storage struct `GuessInternal`. -/
structure GuessInternal where
  player : Addr
  encryptedNumber : String
  timestamp : Nat
  publicKey : String
deriving DecidableEq, Repr

/-- `IGuessGame.PendingWithdrawal`. -/
structure PendingWithdrawal where
  amount : Nat
  availableAt : Nat
deriving DecidableEq, Repr

/-- Storage struct `DealInternal`. -/
structure DealInternal where
  gameId : Nat
  guessId : Nat
  owner : Addr
  viewer : Addr
  potShareBps : Nat
  status : DealStatus
  timestamp : Nat
deriving DecidableEq, Repr

/-- Storage struct `ViewerGameState` (consolidated per-viewer per-game
share accounting). -/
structure ViewerGameState where
  acceptedBps : Nat
  reservedBps : Nat
  acceptedDealIds : List Nat
deriving DecidableEq, Repr

/-- Zero value of a `GameInternal` storage slot. -/
def defaultGame : GameInternal := ⟨0, "", 0, false⟩

/-- Zero value of a `GuessInternal` storage slot. -/
def defaultGuess : GuessInternal := ⟨0, "", 0, ""⟩

/-- Zero value of a `DealInternal` storage slot. -/
def defaultDeal : DealInternal := ⟨0, 0, 0, 0, 0, .Pending, 0⟩

/-- Zero value of a `ViewerGameState` storage slot. -/
def defaultVGS : ViewerGameState := ⟨0, 0, []⟩

/-- The contract's storage (the fields of `GuessGame`), plus the inherited
role sets of `AccessControlUpgradeable` and the global pause flag of
`PausableUpgradeable`. -/
structure St where
  token : Addr
  withdrawalDelay : Nat
  withdrawalsPaused : Bool
  maxPot : Nat
  nextGameId : Nat
  nextDealId : Nat
  games : Nat → GameInternal
  guesses : Nat → Nat → GuessInternal
  nextGuessId : Nat → Nat
  balances : Addr → Nat
  pending : Addr → PendingWithdrawal
  deals : Nat → DealInternal
  pendingDealsByOwner : Addr → List Nat
  pendingIndex : Nat → Nat
  acceptedDealsByViewer : Addr → Nat → List Nat
  guessFeeDelta : Nat → Nat
  viewerGame : Addr → Nat → ViewerGameState
  paused : Bool
  admins : Addr → Bool
  operators : Addr → Bool
  guardians : Addr → Bool

/-- Revert reasons used by the functions modelled here.  `EnforcedPause` /
`ExpectedPause` are the errors of OpenZeppelin's `whenNotPaused` / `_unpause`.
`InvalidFee` is the (oddly named) error of the settlement exact-sum check. -/
inductive Err
  | ZeroAddress
  | NotOperator
  | NotGuardian
  | EnforcedPause
  | ExpectedPause
  | GameNotFound (gameId : Nat)
  | GameInactive (gameId : Nat)
  | InvalidPublicKey
  | InvalidGuessReference (gameId guessId : Nat)
  | InvalidPotShareBps (bps : Nat)
  | OutgoingSharesExceeded (viewer : Addr) (gameId : Nat) (accepted reserved added : Nat)
  | DealNotFound (dealId : Nat)
  | DealAlreadyResolved (dealId : Nat)
  | NotDealRecipient (dealId : Nat) (caller : Addr)
  | NotDealViewer (dealId : Nat) (caller : Addr)
  | LengthMismatch
  | InvalidFee
  | WithdrawalsArePaused
  | WithdrawalAmountZero
  | WithdrawalNotReady (availableAt : Nat)
deriving DecidableEq, Repr

/-- Pointwise update of a storage mapping. -/
def upd {α : Type} (f : Nat → α) (k : Nat) (v : α) : Nat → α :=
  fun x => if x = k then v else f x

/-- Pointwise update of a two-level storage mapping. -/
def upd2 {α : Type} (f : Nat → Nat → α) (k1 k2 : Nat) (v : α) : Nat → Nat → α :=
  fun x => if x = k1 then upd (f x) k2 v else f x

/-- `_requireGameExists`: `gameId != 0 && gameId < _nextGameId`. -/
def gameExists (s : St) (gameId : Nat) : Prop :=
  gameId ≠ 0 ∧ gameId < s.nextGameId

instance (s : St) (gameId : Nat) : Decidable (gameExists s gameId) := by
  unfold gameExists; infer_instance

/-- The storage of a freshly deployed (not yet initialized) proxy: every slot
holds its zero value. -/
def blankSt : St where
  token := 0
  withdrawalDelay := 0
  withdrawalsPaused := false
  maxPot := 0
  nextGameId := 0
  nextDealId := 0
  games := fun _ => defaultGame
  guesses := fun _ _ => defaultGuess
  nextGuessId := fun _ => 0
  balances := fun _ => 0
  pending := fun _ => ⟨0, 0⟩
  deals := fun _ => defaultDeal
  pendingDealsByOwner := fun _ => []
  pendingIndex := fun _ => 0
  acceptedDealsByViewer := fun _ _ => []
  guessFeeDelta := fun _ => 0
  viewerGame := fun _ _ => defaultVGS
  paused := false
  admins := fun _ => false
  operators := fun _ => false
  guardians := fun _ => false

/-- `initializeEngine(token_, maxPot_, admin, operator, guardian, withdrawalDelay_)`. -/
def initializeEngine (token_ maxPot_ : Nat) (admin operator guardian : Addr)
    (withdrawalDelay_ : Nat) : Except Err St :=
  if token_ = 0 ∨ admin = 0 ∨ operator = 0 ∨ guardian = 0 then
    .error .ZeroAddress
  else
    .ok { blankSt with
      token := token_
      maxPot := maxPot_
      withdrawalDelay := if withdrawalDelay_ ≠ 0 then withdrawalDelay_ else 604800
      nextGameId := 1
      nextDealId := 1
      admins := fun a => a = admin
      operators := fun a => a = operator
      guardians := fun a => a = guardian }

/-- The fee expression of `currentGuessFee`:
`g.guessFee + delta * (k == 0 ? 0 : k - 1)` with `k = _nextGuessId[gameId]`. -/
def guessFeeOf (s : St) (gameId : Nat) : Nat :=
  (s.games gameId).guessFee +
    s.guessFeeDelta gameId * (if s.nextGuessId gameId = 0 then 0 else s.nextGuessId gameId - 1)

/-- `currentGuessFee(gameId)` (it first runs `_requireGameExists`). -/
def currentGuessFee (s : St) (gameId : Nat) : Except Err Nat :=
  if ¬ gameExists s gameId then .error (.GameNotFound gameId)
  else .ok (guessFeeOf s gameId)

/-- `requestWithdrawal()` (caller = `msg.sender`, `now` = `block.timestamp`). -/
def requestWithdrawal (caller : Addr) (now : Nat) (s : St) : Except Err St :=
  if s.paused then .error .EnforcedPause
  else if s.withdrawalsPaused then .error .WithdrawalsArePaused
  else
    let p := s.pending caller
    -- release a previous request back to the balance before overwriting
    let s1 :=
      if p.amount ≠ 0 then
        { s with balances := upd s.balances caller (s.balances caller + p.amount)
                 pending := upd s.pending caller ⟨0, 0⟩ }
      else s
    let bal := s1.balances caller
    if bal = 0 then .error .WithdrawalAmountZero
    else
      .ok { s1 with
        balances := upd s1.balances caller 0
        pending := upd s1.pending caller ⟨bal, now + s.withdrawalDelay⟩ }

/-- `claimWithdrawal()`; on success also returns the amount handed to
`_token.safeTransfer` (the external transfer happens after the pending record
is cleared). -/
def claimWithdrawal (caller : Addr) (now : Nat) (s : St) : Except Err (St × Nat) :=
  if s.paused then .error .EnforcedPause
  else if s.withdrawalsPaused then .error .WithdrawalsArePaused
  else
    let p := s.pending caller
    if p.amount = 0 then .error .WithdrawalAmountZero
    else if now < p.availableAt then .error (.WithdrawalNotReady p.availableAt)
    else
      .ok ({ s with pending := upd s.pending caller ⟨0, 0⟩ }, p.amount)

/-- `submitGuess(gameId, encryptedNumber, publicKey)`; returns the new guess
id.  The `safeTransferFrom` collecting the fee is external: if it fails the
whole call reverts with no state change, so a reverting transfer is the same
as the step not being taken. -/
def submitGuess (caller : Addr) (gameId : Nat) (encryptedNumber publicKey : String)
    (now : Nat) (s : St) : Except Err (St × Nat) :=
  if s.paused then .error .EnforcedPause
  else if ¬ gameExists s gameId then .error (.GameNotFound gameId)
  else
    let g := s.games gameId
    if ¬ g.active then .error (.GameInactive gameId)
    else if encryptedNumber.length = 0 ∨ publicKey.length = 0 then .error .InvalidPublicKey
    else
      -- `fee = currentGuessFee(gameId)`, which cannot revert here: the game
      -- existence it re-checks was established two guards above
      let fee := guessFeeOf s gameId
      let guessId := s.nextGuessId gameId
      let newPot := g.pot + fee
      let s1 := { s with
        nextGuessId := upd s.nextGuessId gameId (guessId + 1)
        guesses := upd2 s.guesses gameId guessId ⟨caller, encryptedNumber, now, publicKey⟩
        games := upd s.games gameId { g with pot := newPot } }
      -- enforce cap: close game and pause withdrawals if reached/exceeded
      if s.maxPot ≤ newPot then
        .ok ({ s1 with
                games := upd s1.games gameId { g with pot := newPot, active := false }
                withdrawalsPaused := true }, guessId)
      else
        .ok (s1, guessId)

/-- `createGame(publicKey, guessFee)` (operator only); returns the game id. -/
def createGame (caller : Addr) (publicKey : String) (guessFee : Nat) (s : St) :
    Except Err (St × Nat) :=
  if ¬ s.operators caller then .error .NotOperator
  else if s.paused then .error .EnforcedPause
  else if publicKey.length = 0 then .error .InvalidPublicKey
  else
    let gameId := s.nextGameId
    .ok ({ s with
      nextGameId := gameId + 1
      games := upd s.games gameId ⟨guessFee, publicKey, 0, true⟩
      nextGuessId := upd s.nextGuessId gameId 1
      guessFeeDelta := upd s.guessFeeDelta gameId 0 }, gameId)

/-- `setGuessFee(gameId, newGuessFee)` (operator only). -/
def setGuessFee (caller : Addr) (gameId newGuessFee : Nat) (s : St) : Except Err St :=
  if ¬ s.operators caller then .error .NotOperator
  else if s.paused then .error .EnforcedPause
  else if ¬ gameExists s gameId then .error (.GameNotFound gameId)
  else
    .ok { s with games := upd s.games gameId { s.games gameId with guessFee := newGuessFee } }

/-- `setGuessFeeDelta(gameId, newDelta)` (operator only). -/
def setGuessFeeDelta (caller : Addr) (gameId newDelta : Nat) (s : St) : Except Err St :=
  if ¬ s.operators caller then .error .NotOperator
  else if s.paused then .error .EnforcedPause
  else if ¬ gameExists s gameId then .error (.GameNotFound gameId)
  else
    .ok { s with guessFeeDelta := upd s.guessFeeDelta gameId newDelta }

/-- `setGamePublicKey(gameId, publicKey)` (operator only). -/
def setGamePublicKey (caller : Addr) (gameId : Nat) (publicKey : String) (s : St) :
    Except Err St :=
  if ¬ s.operators caller then .error .NotOperator
  else if s.paused then .error .EnforcedPause
  else if ¬ gameExists s gameId then .error (.GameNotFound gameId)
  else if publicKey.length = 0 then .error .InvalidPublicKey
  else
    .ok { s with games := upd s.games gameId { s.games gameId with publicKey := publicKey } }

/-- One credit `_balances[recipients[i]] += amounts[i]` of the finalize
distribution loop. -/
def credit (s : St) (a : Addr) (amt : Nat) : St :=
  { s with balances := upd s.balances a (s.balances a + amt) }

/-- The finalize distribution loop, in order. -/
def creditAll (s : St) : List Addr → List Nat → St
  | r :: rs, amt :: amts => creditAll (credit s r amt) rs amts
  | _, _ => s

/-- `Σ amounts`. -/
def sumList (l : List Nat) : Nat := l.foldr (· + ·) 0

/-- `finalizeGame(gameId, recipients, amounts)` (operator only): exact-sum
check, then effects (`pot = 0`, `active = false`) before the balance
credits. -/
def finalizeGame (caller : Addr) (gameId : Nat) (recipients : List Addr)
    (amounts : List Nat) (s : St) : Except Err St :=
  if ¬ s.operators caller then .error .NotOperator
  else if s.paused then .error .EnforcedPause
  else if ¬ gameExists s gameId then .error (.GameNotFound gameId)
  else if recipients.length ≠ amounts.length then .error .LengthMismatch
  else
    let g := s.games gameId
    if sumList amounts ≠ g.pot then .error .InvalidFee
    else
      -- effects first
      let s1 := { s with games := upd s.games gameId { g with pot := 0, active := false } }
      -- interactions — distribute
      .ok (creditAll s1 recipients amounts)

/-- `setWithdrawalDelay(newDelay)` (guardian only; note: no pause guard). -/
def setWithdrawalDelay (caller : Addr) (newDelay : Nat) (s : St) : Except Err St :=
  if ¬ s.guardians caller then .error .NotGuardian
  else .ok { s with withdrawalDelay := newDelay }

/-- `pauseWithdrawals()` (guardian only; strict toggle). -/
def pauseWithdrawals (caller : Addr) (s : St) : Except Err St :=
  if ¬ s.guardians caller then .error .NotGuardian
  else if s.withdrawalsPaused then .error .WithdrawalsArePaused
  else .ok { s with withdrawalsPaused := true }

/-- `unpauseWithdrawals()` (guardian only; strict toggle). -/
def unpauseWithdrawals (caller : Addr) (s : St) : Except Err St :=
  if ¬ s.guardians caller then .error .NotGuardian
  else if ¬ s.withdrawalsPaused then .error .WithdrawalsArePaused
  else .ok { s with withdrawalsPaused := false }

/-- `pause()` (guardian only; OZ `_pause` reverts when already paused). -/
def pause (caller : Addr) (s : St) : Except Err St :=
  if ¬ s.guardians caller then .error .NotGuardian
  else if s.paused then .error .EnforcedPause
  else .ok { s with paused := true }

/-- `unpause()` (guardian only; OZ `_unpause` reverts when not paused). -/
def unpause (caller : Addr) (s : St) : Except Err St :=
  if ¬ s.guardians caller then .error .NotGuardian
  else if ¬ s.paused then .error .ExpectedPause
  else .ok { s with paused := false }

/-- `proposeDeal(gameId, guessId, owner, potShareBps)` (caller becomes the
viewer); returns the deal id.  The `uint32` additions of the source are exact
(`Nat` values below `2^16` cannot overflow them); the `uint16` down-cast of
the new reservation is the `% 65536`. -/
def proposeDeal (caller : Addr) (gameId guessId : Nat) (owner : Addr)
    (potShareBps : Nat) (now : Nat) (s : St) : Except Err (St × Nat) :=
  if s.paused then .error .EnforcedPause
  else if ¬ gameExists s gameId then .error (.GameNotFound gameId)
  else if ¬ (guessId ≠ 0 ∧ guessId < s.nextGuessId gameId) then
    .error (.InvalidGuessReference gameId guessId)
  else if owner = 0 then .error .ZeroAddress
  else if ¬ (0 < potShareBps ∧ potShareBps ≤ 10000) then
    .error (.InvalidPotShareBps potShareBps)
  else if (s.guesses gameId guessId).player ≠ owner then
    .error (.InvalidGuessReference gameId guessId)
  else
    let vgs := s.viewerGame caller gameId
    let sumAfter := vgs.acceptedBps + vgs.reservedBps + potShareBps
    if ¬ sumAfter ≤ 10000 then
      .error (.OutgoingSharesExceeded caller gameId vgs.acceptedBps vgs.reservedBps potShareBps)
    else
      let dealId := s.nextDealId
      .ok ({ s with
        nextDealId := dealId + 1
        deals := upd s.deals dealId ⟨gameId, guessId, owner, caller, potShareBps, .Pending, now⟩
        pendingIndex := upd s.pendingIndex dealId ((s.pendingDealsByOwner owner).length + 1)
        pendingDealsByOwner :=
          upd s.pendingDealsByOwner owner (s.pendingDealsByOwner owner ++ [dealId])
        viewerGame := upd2 s.viewerGame caller gameId
          { vgs with reservedBps := (vgs.reservedBps + potShareBps) % 65536 } }, dealId)

/-- `_removePending(dealId, owner)`: swap-with-last removal from the owner's
pending index.  (When `idxPlus ≠ 0` the owner's array is nonempty in every
state the contract can produce; on the impossible empty array Solidity would
panic on `arr.length - 1`, which `Nat` subtraction renders as `0`.) -/
def removePending (s : St) (dealId : Nat) (owner : Addr) : St :=
  let idxPlus := s.pendingIndex dealId
  if idxPlus = 0 then s
  else
    let idx := idxPlus - 1
    let arr := s.pendingDealsByOwner owner
    let last := arr.length - 1
    let s1 :=
      if idx ≠ last then
        let movedId := arr.getD last 0
        { s with
          pendingDealsByOwner := upd s.pendingDealsByOwner owner (arr.set idx movedId)
          pendingIndex := upd s.pendingIndex movedId (idx + 1) }
      else s
    { s1 with
      pendingDealsByOwner :=
        upd s1.pendingDealsByOwner owner (s1.pendingDealsByOwner owner).dropLast
      pendingIndex := upd s1.pendingIndex dealId 0 }

/-- `acceptDeal(dealId)` (caller must be the deal's owner). -/
def acceptDeal (caller : Addr) (dealId : Nat) (s : St) : Except Err St :=
  if s.paused then .error .EnforcedPause
  else
    let d := s.deals dealId
    if d.owner = 0 then .error (.DealNotFound dealId)
    else if d.status ≠ .Pending then .error (.DealAlreadyResolved dealId)
    else if caller ≠ d.owner then .error (.NotDealRecipient dealId caller)
    else
      let s1 := { s with deals := upd s.deals dealId { d with status := .Accepted } }
      let s2 := removePending s1 dealId d.owner
      let s3 := { s2 with
        acceptedDealsByViewer := upd2 s2.acceptedDealsByViewer d.viewer d.gameId
          (s2.acceptedDealsByViewer d.viewer d.gameId ++ [dealId]) }
      let vgs := s3.viewerGame d.viewer d.gameId
      let reserved' :=
        if d.potShareBps ≤ vgs.reservedBps then (vgs.reservedBps - d.potShareBps) % 65536
        else 0
      let newAccepted := vgs.acceptedBps + d.potShareBps
      if ¬ newAccepted ≤ 10000 then
        .error (.OutgoingSharesExceeded d.viewer d.gameId vgs.acceptedBps reserved' d.potShareBps)
      else
        .ok { s3 with
          viewerGame := upd2 s3.viewerGame d.viewer d.gameId
            { acceptedBps := newAccepted % 65536
              reservedBps := reserved'
              acceptedDealIds := vgs.acceptedDealIds ++ [dealId] } }

/-- `rejectDeal(dealId)` (caller must be the deal's owner). -/
def rejectDeal (caller : Addr) (dealId : Nat) (s : St) : Except Err St :=
  if s.paused then .error .EnforcedPause
  else
    let d := s.deals dealId
    if d.owner = 0 then .error (.DealNotFound dealId)
    else if d.status ≠ .Pending then .error (.DealAlreadyResolved dealId)
    else if caller ≠ d.owner then .error (.NotDealRecipient dealId caller)
    else
      let s1 := { s with deals := upd s.deals dealId { d with status := .Rejected } }
      let s2 := removePending s1 dealId d.owner
      let vgs := s2.viewerGame d.viewer d.gameId
      let reserved' :=
        if d.potShareBps ≤ vgs.reservedBps then (vgs.reservedBps - d.potShareBps) % 65536
        else 0
      .ok { s2 with
        viewerGame := upd2 s2.viewerGame d.viewer d.gameId
          { vgs with reservedBps := reserved' } }

/-- `cancelDeal(dealId)` (caller must be the deal's viewer). -/
def cancelDeal (caller : Addr) (dealId : Nat) (s : St) : Except Err St :=
  if s.paused then .error .EnforcedPause
  else
    let d := s.deals dealId
    if d.owner = 0 then .error (.DealNotFound dealId)
    else if d.status ≠ .Pending then .error (.DealAlreadyResolved dealId)
    else if caller ≠ d.viewer then .error (.NotDealViewer dealId caller)
    else
      let s1 := { s with deals := upd s.deals dealId { d with status := .Cancelled } }
      let s2 := removePending s1 dealId d.owner
      let vgs := s2.viewerGame d.viewer d.gameId
      let reserved' :=
        if d.potShareBps ≤ vgs.reservedBps then (vgs.reservedBps - d.potShareBps) % 65536
        else 0
      .ok { s2 with
        viewerGame := upd2 s2.viewerGame d.viewer d.gameId
          { vgs with reservedBps := reserved' } }

/-- One externally callable mutating entry point of the contract, with its
arguments (`caller` = `msg.sender`, `now` = `block.timestamp`). -/
inductive Op
  | requestWithdrawal (caller now : Nat)
  | claimWithdrawal (caller now : Nat)
  | submitGuess (caller gameId : Nat) (encryptedNumber publicKey : String) (now : Nat)
  | createGame (caller : Nat) (publicKey : String) (guessFee : Nat)
  | setGuessFee (caller gameId newGuessFee : Nat)
  | setGuessFeeDelta (caller gameId newDelta : Nat)
  | setGamePublicKey (caller gameId : Nat) (publicKey : String)
  | finalizeGame (caller gameId : Nat) (recipients : List Nat) (amounts : List Nat)
  | setWithdrawalDelay (caller newDelay : Nat)
  | pauseWithdrawals (caller : Nat)
  | unpauseWithdrawals (caller : Nat)
  | pause (caller : Nat)
  | unpause (caller : Nat)
  | proposeDeal (caller gameId guessId owner potShareBps now : Nat)
  | acceptDeal (caller dealId : Nat)
  | rejectDeal (caller dealId : Nat)
  | cancelDeal (caller dealId : Nat)
deriving DecidableEq, Repr

/-- Run one entry point, dropping the return value. -/
def runOp (o : Op) (s : St) : Except Err St :=
  match o with
  | .requestWithdrawal c now => requestWithdrawal c now s
  | .claimWithdrawal c now => (claimWithdrawal c now s).map (·.1)
  | .submitGuess c g e p now => (submitGuess c g e p now s).map (·.1)
  | .createGame c pk fee => (createGame c pk fee s).map (·.1)
  | .setGuessFee c g f => setGuessFee c g f s
  | .setGuessFeeDelta c g d => setGuessFeeDelta c g d s
  | .setGamePublicKey c g pk => setGamePublicKey c g pk s
  | .finalizeGame c g rs amts => finalizeGame c g rs amts s
  | .setWithdrawalDelay c d => setWithdrawalDelay c d s
  | .pauseWithdrawals c => pauseWithdrawals c s
  | .unpauseWithdrawals c => unpauseWithdrawals c s
  | .pause c => pause c s
  | .unpause c => unpause c s
  | .proposeDeal c g q o bps now => (proposeDeal c g q o bps now s).map (·.1)
  | .acceptDeal c d => acceptDeal c d s
  | .rejectDeal c d => rejectDeal c d s
  | .cancelDeal c d => cancelDeal c d s

/-- The state after a transaction: a reverted call leaves storage unchanged. -/
def next (o : Op) (s : St) : St :=
  match runOp o s with
  | .ok s' => s'
  | .error _ => s

/-- `s` is an initialized engine state. -/
def Inited (s : St) : Prop :=
  ∃ token_ maxPot_ admin operator guardian withdrawalDelay_,
    initializeEngine token_ maxPot_ admin operator guardian withdrawalDelay_ = .ok s

/-- States reachable from `s0` by any sequence of entry-point calls. -/
inductive Reachable (s0 : St) : St → Prop
  | refl : Reachable s0 s0
  | step (o : Op) {s : St} : Reachable s0 s → Reachable s0 (next o s)

end GuessGame

namespace TS

/-- Deal status of the TypeScript coordination module
(`'pending' | 'accepted' | 'rejected'`). -/
inductive TStatus
  | pending
  | accepted
  | rejected
deriving DecidableEq, Repr

/-- The `Deal` record of `src/coordination/state.ts` (the variant with
`gameId` and `potSharePercent`, as used by `getOutgoingShares`). -/
structure TDeal where
  dealId : String
  gameId : String
  senderId : String
  recipientId : String
  message : String
  potSharePercent : Int
  status : TStatus
  timestamp : Nat
deriving DecidableEq, Repr

/-- One `{ recipientId, percent }` entry returned by `getOutgoingShares`. -/
structure TShare where
  recipientId : String
  percent : Int
deriving DecidableEq, Repr

/-- `getOutgoingShares(gameId, viewerId)`: the accepted deals proposed by
`viewerId` in `gameId`, in store order.  The `deals` map is modelled as the
list of its values in insertion order. -/
def getOutgoingShares (deals : List TDeal) (gameId viewerId : String) : List TShare :=
  deals.filterMap fun d =>
    if d.gameId = gameId ∧ d.senderId = viewerId ∧ d.status = .accepted then
      some ⟨d.recipientId, d.potSharePercent⟩
    else none

/-- `Math.max(0, Math.min(100, e.percent))`, as a `Nat`. -/
def clampPct (p : Int) : Nat := (max 0 (min 100 p)).toNat

/-- The edge loop of `dfs` in `distributeRevenueGraph`: processes the edges in
order, recursing (`f`) into each recipient whose computed share is positive;
returns the total allocated amount and the `paid[..] += ..` events emitted by
the recursive calls, in order. -/
def dfsGo (f : String → Nat → Option (List (String × Nat))) (amount : Nat) :
    List TShare → Option (Nat × List (String × Nat))
  | [] => some (0, [])
  | e :: rest =>
      let pct := clampPct e.percent
      if pct = 0 then dfsGo f amount rest
      else
        let share := amount * pct / 100
        if share = 0 then dfsGo f amount rest
        else
          match f e.recipientId share with
          | none => none
          | some evs =>
            match dfsGo f amount rest with
            | none => none
            | some (alloc, evs2) => some (share + alloc, evs ++ evs2)

/-- The `dfs` of `distributeRevenueGraph`, with an explicit fuel bounding the
recursion depth (the source's recursion depth is bounded by the number of
distinct sender nodes plus one, so any fuel beyond `deals.length + 2`
behaves identically).  Returns the emitted `paid[node] += amt` events in
order; `Nat` subtraction renders `Math.max(0, amount - allocated)`. -/
def dfs (deals : List TDeal) (gid : String) :
    Nat → List String → String → Nat → Option (List (String × Nat))
  | 0, _, _, _ => none
  | fuel + 1, visiting, node, amount =>
      if amount = 0 then some []
      else if node ∈ visiting then some [(node, amount)]
      else
        let edges := getOutgoingShares deals gid node
        let totalPct := min (edges.foldl (fun acc e => acc + clampPct e.percent) 0) 100
        match (if 0 < totalPct then
                 dfsGo (dfs deals gid fuel (node :: visiting)) amount edges
               else some (0, [])) with
        | none => none
        | some (alloc, evs) =>
            let remainder := amount - alloc
            some (evs ++ (if 0 < remainder then [(node, remainder)] else []))

/-- `distributeRevenueGraph(gameId, rootWinnerId, totalAmount)`: the events of
the DFS run from the winner (their aggregation is the `paid` record the
source then credits to balances). -/
def distributeRevenueGraph (deals : List TDeal) (gid rootWinnerId : String)
    (totalAmount : Nat) : Option (List (String × Nat)) :=
  dfs deals gid (deals.length + 2) [] rootWinnerId totalAmount

/-- Total amount paid out by a list of payment events. -/
def sumEvents (evs : List (String × Nat)) : Nat :=
  evs.foldr (fun e acc => e.2 + acc) 0

/-- The aggregated `paid` record at one node. -/
def paidAt (evs : List (String × Nat)) (node : String) : Nat :=
  evs.foldr (fun e acc => (if e.1 = node then e.2 else 0) + acc) 0

/-- The deal store of the over-payment run: in game `"g"`, viewer `"a"` has
two accepted deals of 100% each (the coordination routes validate each deal's
`potSharePercent` individually against `(0, 100]` but never bound the sum of
a viewer's accepted shares). -/
def cexDeals : List TDeal :=
  [⟨"d1", "g", "a", "b", "m", 100, .accepted, 0⟩,
   ⟨"d2", "g", "a", "c", "m", 100, .accepted, 0⟩]

end TS

namespace GuessGame

/-- Total credited to `a` by the finalize distribution loop over
`recipients`/`amounts` (duplicates accumulate). -/
def paidTo : List Addr → List Nat → Addr → Nat
  | r :: rs, amt :: amts, a => (if r = a then amt else 0) + paidTo rs amts a
  | _, _, _ => 0

/-- The reserved bps the pending deals of `(viewer, game)` account for. -/
def pendingWeight (d : DealInternal) (v : Addr) (g : Nat) : Nat :=
  if d.viewer = v ∧ d.gameId = g ∧ d.status = .Pending then d.potShareBps else 0

/-- Sum over all allocated deal slots of the reserved bps owed to
`(viewer, game)` by pending deals. -/
def reservedSum (s : St) (v : Addr) (g : Nat) : Nat :=
  ∑ id ∈ Finset.range s.nextDealId, pendingWeight (s.deals id) v g

/-- The inductive invariant of the deal graph: the 100% cap on
accepted+reserved shares, exact reserved accounting against the pending
deals, and unallocated deal slots still holding their zero value. -/
structure Good (s : St) : Prop where
  vg_cap : ∀ v g, (s.viewerGame v g).acceptedBps + (s.viewerGame v g).reservedBps ≤ 10000
  reserved_eq : ∀ v g, (s.viewerGame v g).reservedBps = reservedSum s v g
  deals_unset : ∀ id, s.nextDealId ≤ id → s.deals id = defaultDeal

/-- Demo engine state: operator `2`, guardian `3`, withdrawal delay `10`,
`maxPot = 25000`; game `1` exists, is active, has `feeBase = 5`,
`feeDelta = 1`, an empty pot and no guesses yet. -/
def demoSt : St :=
  { blankSt with
    token := 1
    withdrawalDelay := 10
    maxPot := 25000
    nextGameId := 2
    nextDealId := 1
    games := fun g => if g = 1 then ⟨5, "k", 0, true⟩ else defaultGame
    nextGuessId := fun g => if g = 1 then 1 else 0
    guessFeeDelta := fun g => if g = 1 then 1 else 0
    admins := fun a => a = 1
    operators := fun a => a = 2
    guardians := fun a => a = 3 }

/-- `demoSt` after player `7` has submitted guess `1` of game `1`. -/
def demoGuessSt : St :=
  { demoSt with
    nextGuessId := fun g => if g = 1 then 2 else 0
    guesses := fun g q => if g = 1 ∧ q = 1 then ⟨7, "e", 0, "p"⟩ else defaultGuess
    games := fun g => if g = 1 then ⟨5, "k", 5, true⟩ else defaultGame }

/-- `demoSt` after two guesses in game `1` (fees 5 and 6 collected). -/
def demoGuess2St : St :=
  { demoSt with
    nextGuessId := fun g => if g = 1 then 3 else 0
    games := fun g => if g = 1 then ⟨5, "k", 11, true⟩ else defaultGame }

/-- `demoSt` with a pot of `11` in game `1`. -/
def demoPotSt : St :=
  { demoSt with games := fun g => if g = 1 then ⟨5, "k", 11, true⟩ else defaultGame }

/-- `demoSt` with game `1` already finalized (`pot = 0`, `active = false`). -/
def demoFinSt : St :=
  { demoSt with games := fun g => if g = 1 then ⟨5, "k", 0, false⟩ else defaultGame }

/-- `demoSt` with identity `9` holding a live balance of `5` and a pending
withdrawal of `7`. -/
def demoWdSt : St :=
  { demoSt with
    balances := fun a => if a = 9 then 5 else 0
    pending := fun a => if a = 9 then ⟨7, 0⟩ else ⟨0, 0⟩ }

/-- `demoSt` with identity `9` holding a live balance of `5` and no pending
withdrawal. -/
def demoBalSt : St :=
  { demoSt with balances := fun a => if a = 9 then 5 else 0 }

/-- `demoSt` with the withdrawals-paused latch set. -/
def demoPausedSt : St := { demoSt with withdrawalsPaused := true }

/-- `demoSt` with `maxPot` lowered to `5`, so the first guess fee reaches the
cap. -/
def demoCapSt : St := { demoSt with maxPot := 5 }

/-- The state `initialize(1, 25000, 1, 2, 3, 10)` produces: a freshly
initialized engine with admin 1, operator 2, guardian 3 and no games. -/
def initDemoSt : St :=
  { blankSt with
    token := 1
    maxPot := 25000
    withdrawalDelay := 10
    nextGameId := 1
    nextDealId := 1
    admins := fun a => a = 1
    operators := fun a => a = 2
    guardians := fun a => a = 3 }

/-- Frame shared by every operation outside the deal sub-system: the deal
storage, the per-viewer share accounting and the deal counter are untouched. -/
def DealFrame (s t : St) : Prop :=
  t.deals = s.deals ∧ t.viewerGame = s.viewerGame ∧ t.nextDealId = s.nextDealId

/-! Basic lemmas about the storage helpers. -/

theorem upd_apply {α : Type} (f : Nat → α) (k : Nat) (v : α) (x : Nat) :
    upd f k v x = if x = k then v else f x := rfl

theorem upd2_apply {α : Type} (f : Nat → Nat → α) (k1 k2 : Nat) (v : α) (x y : Nat) :
    upd2 f k1 k2 v x y = (if x = k1 then upd (f x) k2 v else f x) y := rfl

theorem upd_upd_same {α : Type} (f : Nat → α) (k : Nat) (a b : α) :
    upd (upd f k a) k b = upd f k b := by
  funext x
  by_cases h : x = k <;> simp [upd, h]

theorem creditAll_proj (rs : List Addr) : ∀ (amts : List Nat) (s : St),
    creditAll s rs amts = { s with balances := (creditAll s rs amts).balances } := by
  induction rs with
  | nil => intro amts s; cases amts <;> rfl
  | cons r rs ih =>
    intro amts s
    cases amts with
    | nil => rfl
    | cons amt amts =>
      show creditAll (credit s r amt) rs amts = _
      rw [ih]
      rfl

theorem creditAll_games (rs : List Addr) (amts : List Nat) (s : St) :
    (creditAll s rs amts).games = s.games := by
  conv_lhs => rw [creditAll_proj]

theorem creditAll_deals (rs : List Addr) (amts : List Nat) (s : St) :
    (creditAll s rs amts).deals = s.deals := by
  conv_lhs => rw [creditAll_proj]

theorem creditAll_viewerGame (rs : List Addr) (amts : List Nat) (s : St) :
    (creditAll s rs amts).viewerGame = s.viewerGame := by
  conv_lhs => rw [creditAll_proj]

theorem creditAll_nextDealId (rs : List Addr) (amts : List Nat) (s : St) :
    (creditAll s rs amts).nextDealId = s.nextDealId := by
  conv_lhs => rw [creditAll_proj]

theorem creditAll_withdrawalsPaused (rs : List Addr) (amts : List Nat) (s : St) :
    (creditAll s rs amts).withdrawalsPaused = s.withdrawalsPaused := by
  conv_lhs => rw [creditAll_proj]

theorem creditAll_withdrawalDelay (rs : List Addr) (amts : List Nat) (s : St) :
    (creditAll s rs amts).withdrawalDelay = s.withdrawalDelay := by
  conv_lhs => rw [creditAll_proj]

theorem creditAll_balances (rs : List Addr) : ∀ (amts : List Nat) (s : St) (a : Addr),
    (creditAll s rs amts).balances a = s.balances a + paidTo rs amts a := by
  induction rs with
  | nil => intro amts s a; cases amts <;> simp [creditAll, paidTo]
  | cons r rs ih =>
    intro amts s a
    cases amts with
    | nil => simp [creditAll, paidTo]
    | cons amt amts =>
      show (creditAll (credit s r amt) rs amts).balances a = _
      rw [ih]
      simp only [credit, paidTo]
      by_cases h : a = r
      · subst h; simp [upd, Nat.add_assoc]
      · simp [upd, h, Ne.symm h]

theorem credit_zero (s : St) (r : Addr) : credit s r 0 = s := by
  show { s with balances := upd s.balances r (s.balances r + 0) } = s
  have hb : upd s.balances r (s.balances r + 0) = s.balances := by
    funext x
    by_cases h : x = r
    · subst h; simp [upd]
    · simp [upd, h]
  rw [hb]

theorem creditAll_zero (rs : List Addr) : ∀ (amts : List Nat) (s : St),
    (∀ x ∈ amts, x = 0) → creditAll s rs amts = s := by
  induction rs with
  | nil => intro amts s _; cases amts <;> rfl
  | cons r rs ih =>
    intro amts s hz
    cases amts with
    | nil => rfl
    | cons amt amts =>
      show creditAll (credit s r amt) rs amts = s
      have h0 : amt = 0 := hz amt (by simp)
      subst h0
      rw [credit_zero, ih amts s (fun x hx => hz x (by simp [hx]))]

theorem sumList_nil : sumList [] = 0 := rfl

theorem sumList_cons (a : Nat) (l : List Nat) : sumList (a :: l) = a + sumList l := rfl

theorem sumList_eq_zero {amts : List Nat} (h : sumList amts = 0) : ∀ x ∈ amts, x = 0 := by
  induction amts with
  | nil => simp
  | cons a l ih =>
    rw [sumList_cons] at h
    intro x hx
    rcases List.mem_cons.mp hx with hx | hx
    · subst hx; omega
    · exact ih (by omega) x hx

theorem map_fst_ok {f : Except Err (St × Nat)} {s' : St} (h : f.map (·.1) = .ok s') :
    ∃ v, f = .ok (s', v) := by
  cases f with
  | error e => simp [Except.map] at h
  | ok pr =>
    simp [Except.map] at h
    exact ⟨pr.2, by rw [← h]⟩

/-! Characterization of each entry point's successful runs: the conditions it
checked and the storage it left behind. -/

theorem requestWithdrawal_ok {c now : Nat} {s s' : St} (h : requestWithdrawal c now s = .ok s') :
    s'.withdrawalDelay = s.withdrawalDelay ∧ s'.withdrawalsPaused = s.withdrawalsPaused ∧
    DealFrame s s' := by
  unfold requestWithdrawal at h
  simp only [] at h
  split_ifs at h <;>
    first
      | exact Except.noConfusion h
      | (obtain rfl := Except.ok.inj h; exact ⟨rfl, rfl, rfl, rfl, rfl⟩)

theorem claimWithdrawal_ok {c now : Nat} {s s' : St} {v : Nat}
    (h : claimWithdrawal c now s = .ok (s', v)) :
    s'.withdrawalDelay = s.withdrawalDelay ∧ s'.withdrawalsPaused = s.withdrawalsPaused ∧
    DealFrame s s' := by
  unfold claimWithdrawal at h
  simp only [] at h
  split_ifs at h <;>
    first
      | exact Except.noConfusion h
      | (obtain ⟨rfl, rfl⟩ := Prod.mk.injEq .. ▸ Except.ok.inj h; exact ⟨rfl, rfl, rfl, rfl, rfl⟩)

theorem submitGuess_ok {c g : Nat} {e p : String} {now : Nat} {s s' : St} {gid : Nat}
    (h : submitGuess c g e p now s = .ok (s', gid)) :
    s.paused = false ∧ gameExists s g ∧ (s.games g).active = true ∧
    e.length ≠ 0 ∧ p.length ≠ 0 ∧ gid = s.nextGuessId g ∧
    s'.nextGuessId = upd s.nextGuessId g (s.nextGuessId g + 1) ∧
    s'.guesses = upd2 s.guesses g (s.nextGuessId g) ⟨c, e, now, p⟩ ∧
    s'.withdrawalDelay = s.withdrawalDelay ∧ s'.paused = s.paused ∧
    s'.maxPot = s.maxPot ∧ DealFrame s s' ∧ s'.balances = s.balances ∧
    s'.pending = s.pending ∧
    ((s.maxPot ≤ (s.games g).pot + guessFeeOf s g ∧
        s'.games = upd s.games g
          { s.games g with pot := (s.games g).pot + guessFeeOf s g, active := false } ∧
        s'.withdrawalsPaused = true) ∨
      ((s.games g).pot + guessFeeOf s g < s.maxPot ∧
        s'.games = upd s.games g
          { s.games g with pot := (s.games g).pot + guessFeeOf s g } ∧
        s'.withdrawalsPaused = s.withdrawalsPaused)) := by
  unfold submitGuess at h
  simp only [] at h
  split_ifs at h with h1 h2 h3 h4 h5 <;>
    first
      | exact Except.noConfusion h
      | (obtain ⟨rfl, rfl⟩ := Prod.mk.injEq .. ▸ Except.ok.inj h
         refine ⟨by simpa using h1, h2, h3,
           ?_, ?_, rfl, rfl, rfl, rfl, rfl, rfl, ⟨rfl, rfl, rfl⟩, rfl, rfl, ?_⟩
         · intro he; exact h4 (Or.inl he)
         · intro hp; exact h4 (Or.inr hp)
         · first
             | exact Or.inl ⟨h5, by simp [upd_upd_same], rfl⟩
             | exact Or.inr ⟨by omega, rfl, rfl⟩)

theorem createGame_ok {c : Nat} {pk : String} {fee : Nat} {s s' : St} {gid : Nat}
    (h : createGame c pk fee s = .ok (s', gid)) :
    s'.withdrawalDelay = s.withdrawalDelay ∧ s'.withdrawalsPaused = s.withdrawalsPaused ∧
    DealFrame s s' := by
  unfold createGame at h
  simp only [] at h
  split_ifs at h <;>
    first
      | exact Except.noConfusion h
      | (obtain ⟨rfl, rfl⟩ := Prod.mk.injEq .. ▸ Except.ok.inj h; exact ⟨rfl, rfl, rfl, rfl, rfl⟩)

theorem setGuessFee_ok {c g f : Nat} {s s' : St} (h : setGuessFee c g f s = .ok s') :
    s'.withdrawalDelay = s.withdrawalDelay ∧ s'.withdrawalsPaused = s.withdrawalsPaused ∧
    DealFrame s s' := by
  unfold setGuessFee at h
  split_ifs at h <;>
    first
      | exact Except.noConfusion h
      | (obtain rfl := Except.ok.inj h; exact ⟨rfl, rfl, rfl, rfl, rfl⟩)

theorem setGuessFeeDelta_ok {c g d : Nat} {s s' : St} (h : setGuessFeeDelta c g d s = .ok s') :
    s'.withdrawalDelay = s.withdrawalDelay ∧ s'.withdrawalsPaused = s.withdrawalsPaused ∧
    DealFrame s s' := by
  unfold setGuessFeeDelta at h
  split_ifs at h <;>
    first
      | exact Except.noConfusion h
      | (obtain rfl := Except.ok.inj h; exact ⟨rfl, rfl, rfl, rfl, rfl⟩)

theorem setGamePublicKey_ok {c g : Nat} {pk : String} {s s' : St}
    (h : setGamePublicKey c g pk s = .ok s') :
    s'.withdrawalDelay = s.withdrawalDelay ∧ s'.withdrawalsPaused = s.withdrawalsPaused ∧
    DealFrame s s' := by
  unfold setGamePublicKey at h
  split_ifs at h <;>
    first
      | exact Except.noConfusion h
      | (obtain rfl := Except.ok.inj h; exact ⟨rfl, rfl, rfl, rfl, rfl⟩)

theorem finalizeGame_ok {c g : Nat} {rs : List Addr} {amts : List Nat} {s s' : St}
    (h : finalizeGame c g rs amts s = .ok s') :
    s'.withdrawalDelay = s.withdrawalDelay ∧ s'.withdrawalsPaused = s.withdrawalsPaused ∧
    DealFrame s s' := by
  unfold finalizeGame at h
  simp only [] at h
  split_ifs at h <;>
    first
      | exact Except.noConfusion h
      | (obtain rfl := Except.ok.inj h
         exact ⟨creditAll_withdrawalDelay .., creditAll_withdrawalsPaused ..,
           creditAll_deals .., creditAll_viewerGame .., creditAll_nextDealId ..⟩)

theorem setWithdrawalDelay_ok {c d : Nat} {s s' : St} (h : setWithdrawalDelay c d s = .ok s') :
    s'.withdrawalDelay = d ∧ s'.withdrawalsPaused = s.withdrawalsPaused ∧
    DealFrame s s' := by
  unfold setWithdrawalDelay at h
  split_ifs at h <;>
    first
      | exact Except.noConfusion h
      | (obtain rfl := Except.ok.inj h; exact ⟨rfl, rfl, rfl, rfl, rfl⟩)

theorem pauseWithdrawals_ok {c : Nat} {s s' : St} (h : pauseWithdrawals c s = .ok s') :
    s.withdrawalsPaused = false ∧ s'.withdrawalsPaused = true ∧
    s'.withdrawalDelay = s.withdrawalDelay ∧ DealFrame s s' := by
  unfold pauseWithdrawals at h
  split_ifs at h with h1 h2 <;>
    first
      | exact Except.noConfusion h
      | (obtain rfl := Except.ok.inj h; exact ⟨by simpa using h2, rfl, rfl, rfl, rfl, rfl⟩)

theorem unpauseWithdrawals_ok {c : Nat} {s s' : St} (h : unpauseWithdrawals c s = .ok s') :
    s.withdrawalsPaused = true ∧ s'.withdrawalsPaused = false ∧
    s'.withdrawalDelay = s.withdrawalDelay ∧ DealFrame s s' := by
  unfold unpauseWithdrawals at h
  split_ifs at h with h1 h2 <;>
    first
      | exact Except.noConfusion h
      | (obtain rfl := Except.ok.inj h; exact ⟨h2, rfl, rfl, rfl, rfl, rfl⟩)

theorem removePending_frame (s : St) (k : Nat) (o : Addr) :
    (removePending s k o).deals = s.deals ∧
    (removePending s k o).viewerGame = s.viewerGame ∧
    (removePending s k o).nextDealId = s.nextDealId ∧
    (removePending s k o).acceptedDealsByViewer = s.acceptedDealsByViewer ∧
    (removePending s k o).withdrawalsPaused = s.withdrawalsPaused ∧
    (removePending s k o).withdrawalDelay = s.withdrawalDelay ∧
    (removePending s k o).paused = s.paused := by
  unfold removePending
  simp only []
  split_ifs <;> exact ⟨rfl, rfl, rfl, rfl, rfl, rfl, rfl⟩

theorem proposeDeal_ok {c g q ow bps now : Nat} {s s' : St} {did : Nat}
    (h : proposeDeal c g q ow bps now s = .ok (s', did)) :
    s.paused = false ∧ gameExists s g ∧ (q ≠ 0 ∧ q < s.nextGuessId g) ∧ ow ≠ 0 ∧
    (0 < bps ∧ bps ≤ 10000) ∧ (s.guesses g q).player = ow ∧
    (s.viewerGame c g).acceptedBps + (s.viewerGame c g).reservedBps + bps ≤ 10000 ∧
    did = s.nextDealId ∧
    s' = { s with
      nextDealId := s.nextDealId + 1
      deals := upd s.deals s.nextDealId ⟨g, q, ow, c, bps, .Pending, now⟩
      pendingIndex := upd s.pendingIndex s.nextDealId ((s.pendingDealsByOwner ow).length + 1)
      pendingDealsByOwner := upd s.pendingDealsByOwner ow (s.pendingDealsByOwner ow ++ [s.nextDealId])
      viewerGame := upd2 s.viewerGame c g
        { s.viewerGame c g with
            reservedBps := ((s.viewerGame c g).reservedBps + bps) % 65536 } } := by
  unfold proposeDeal at h
  simp only [] at h
  split_ifs at h with h1 h2 h3 h4 h5 h6 h7 <;>
    first
      | exact Except.noConfusion h
      | (obtain ⟨rfl, rfl⟩ := Prod.mk.injEq .. ▸ Except.ok.inj h
         exact ⟨by simpa using h1, h2, h3, h4, h5, not_not.mp h6, h7, rfl, rfl⟩)

theorem acceptDeal_ok {c k : Nat} {s s' : St} (h : acceptDeal c k s = .ok s') :
    s.paused = false ∧
    (s.deals k).owner ≠ 0 ∧ (s.deals k).status = .Pending ∧ c = (s.deals k).owner ∧
    (s.viewerGame (s.deals k).viewer (s.deals k).gameId).acceptedBps +
      (s.deals k).potShareBps ≤ 10000 ∧
    s'.withdrawalDelay = s.withdrawalDelay ∧ s'.withdrawalsPaused = s.withdrawalsPaused ∧
    s'.nextDealId = s.nextDealId ∧
    s'.deals = upd s.deals k { s.deals k with status := .Accepted } ∧
    s'.viewerGame = upd2 s.viewerGame (s.deals k).viewer (s.deals k).gameId
      { acceptedBps := ((s.viewerGame (s.deals k).viewer (s.deals k).gameId).acceptedBps +
          (s.deals k).potShareBps) % 65536
        reservedBps :=
          if (s.deals k).potShareBps ≤
              (s.viewerGame (s.deals k).viewer (s.deals k).gameId).reservedBps then
            ((s.viewerGame (s.deals k).viewer (s.deals k).gameId).reservedBps -
              (s.deals k).potShareBps) % 65536
          else 0
        acceptedDealIds :=
          (s.viewerGame (s.deals k).viewer (s.deals k).gameId).acceptedDealIds ++ [k] } := by
  unfold acceptDeal at h
  simp only [] at h
  split_ifs at h with h1 h2 h3 h4 h5 h6 <;>
    first
      | exact Except.noConfusion h
      | (obtain rfl := Except.ok.inj h
         refine ⟨by simpa using h1, h2, not_not.mp h3, not_not.mp h4, ?_, ?_, ?_, ?_, ?_, ?_⟩
         · rw [(removePending_frame ..).2.1] at h5; exact h5
         · simp [removePending_frame]
         · simp [removePending_frame]
         · simp [removePending_frame]
         · simp [removePending_frame]
         · rw [(removePending_frame ..).2.1] at h6
           simp [removePending_frame, h6])

theorem rejectDeal_ok {c k : Nat} {s s' : St} (h : rejectDeal c k s = .ok s') :
    s.paused = false ∧
    (s.deals k).owner ≠ 0 ∧ (s.deals k).status = .Pending ∧ c = (s.deals k).owner ∧
    s'.withdrawalDelay = s.withdrawalDelay ∧ s'.withdrawalsPaused = s.withdrawalsPaused ∧
    s'.nextDealId = s.nextDealId ∧
    s'.deals = upd s.deals k { s.deals k with status := .Rejected } ∧
    s'.viewerGame = upd2 s.viewerGame (s.deals k).viewer (s.deals k).gameId
      { s.viewerGame (s.deals k).viewer (s.deals k).gameId with
        reservedBps :=
          if (s.deals k).potShareBps ≤
              (s.viewerGame (s.deals k).viewer (s.deals k).gameId).reservedBps then
            ((s.viewerGame (s.deals k).viewer (s.deals k).gameId).reservedBps -
              (s.deals k).potShareBps) % 65536
          else 0 } := by
  unfold rejectDeal at h
  simp only [] at h
  split_ifs at h with h1 h2 h3 h4 h5 <;>
    first
      | exact Except.noConfusion h
      | (obtain rfl := Except.ok.inj h
         refine ⟨by simpa using h1, h2, not_not.mp h3, not_not.mp h4, ?_, ?_, ?_, ?_, ?_⟩
         · simp [removePending_frame]
         · simp [removePending_frame]
         · simp [removePending_frame]
         · simp [removePending_frame]
         · rw [(removePending_frame ..).2.1] at h5
           simp [removePending_frame, h5])

theorem cancelDeal_ok {c k : Nat} {s s' : St} (h : cancelDeal c k s = .ok s') :
    s.paused = false ∧
    (s.deals k).owner ≠ 0 ∧ (s.deals k).status = .Pending ∧ c = (s.deals k).viewer ∧
    s'.withdrawalDelay = s.withdrawalDelay ∧ s'.withdrawalsPaused = s.withdrawalsPaused ∧
    s'.nextDealId = s.nextDealId ∧
    s'.deals = upd s.deals k { s.deals k with status := .Cancelled } ∧
    s'.viewerGame = upd2 s.viewerGame (s.deals k).viewer (s.deals k).gameId
      { s.viewerGame (s.deals k).viewer (s.deals k).gameId with
        reservedBps :=
          if (s.deals k).potShareBps ≤
              (s.viewerGame (s.deals k).viewer (s.deals k).gameId).reservedBps then
            ((s.viewerGame (s.deals k).viewer (s.deals k).gameId).reservedBps -
              (s.deals k).potShareBps) % 65536
          else 0 } := by
  unfold cancelDeal at h
  simp only [] at h
  split_ifs at h with h1 h2 h3 h4 h5 <;>
    first
      | exact Except.noConfusion h
      | (obtain rfl := Except.ok.inj h
         refine ⟨by simpa using h1, h2, not_not.mp h3, not_not.mp h4, ?_, ?_, ?_, ?_, ?_⟩
         · simp [removePending_frame]
         · simp [removePending_frame]
         · simp [removePending_frame]
         · simp [removePending_frame]
         · rw [(removePending_frame ..).2.1] at h5
           simp [removePending_frame, h5])

theorem pause_ok {c : Nat} {s s' : St} (h : pause c s = .ok s') :
    s'.withdrawalDelay = s.withdrawalDelay ∧ s'.withdrawalsPaused = s.withdrawalsPaused ∧
    DealFrame s s' := by
  unfold pause at h
  split_ifs at h <;>
    first
      | exact Except.noConfusion h
      | (obtain rfl := Except.ok.inj h; exact ⟨rfl, rfl, rfl, rfl, rfl⟩)

theorem unpause_ok {c : Nat} {s s' : St} (h : unpause c s = .ok s') :
    s'.withdrawalDelay = s.withdrawalDelay ∧ s'.withdrawalsPaused = s.withdrawalsPaused ∧
    DealFrame s s' := by
  unfold unpause at h
  split_ifs at h <;>
    first
      | exact Except.noConfusion h
      | (obtain rfl := Except.ok.inj h; exact ⟨rfl, rfl, rfl, rfl, rfl⟩)

theorem next_withdrawalDelay {o : Op} {s : St} (hne : ∀ c d, o ≠ Op.setWithdrawalDelay c d) :
    (next o s).withdrawalDelay = s.withdrawalDelay := by
  unfold next
  cases hro : runOp o s with
  | error e => rfl
  | ok s2 =>
    show s2.withdrawalDelay = s.withdrawalDelay
    cases o with
    | requestWithdrawal c now =>
      exact (requestWithdrawal_ok hro).1
    | claimWithdrawal c now =>
      obtain ⟨v, hf⟩ := map_fst_ok hro
      exact (claimWithdrawal_ok hf).1
    | submitGuess c g e p now =>
      obtain ⟨v, hf⟩ := map_fst_ok hro
      obtain ⟨_, _, _, _, _, _, _, _, hwd, _⟩ := submitGuess_ok hf
      exact hwd
    | createGame c pk fee =>
      obtain ⟨v, hf⟩ := map_fst_ok hro
      exact (createGame_ok hf).1
    | setGuessFee c g f => exact (setGuessFee_ok hro).1
    | setGuessFeeDelta c g d => exact (setGuessFeeDelta_ok hro).1
    | setGamePublicKey c g pk => exact (setGamePublicKey_ok hro).1
    | finalizeGame c g rs amts => exact (finalizeGame_ok hro).1
    | setWithdrawalDelay c d => exact absurd rfl (hne c d)
    | pauseWithdrawals c => exact (pauseWithdrawals_ok hro).2.2.1
    | unpauseWithdrawals c => exact (unpauseWithdrawals_ok hro).2.2.1
    | pause c => exact (pause_ok hro).1
    | unpause c => exact (unpause_ok hro).1
    | proposeDeal c g q ow bps now =>
      obtain ⟨v, hf⟩ := map_fst_ok hro
      obtain ⟨_, _, _, _, _, _, _, _, rfl⟩ := proposeDeal_ok hf
      rfl
    | acceptDeal c k => exact (acceptDeal_ok hro).2.2.2.2.2.1
    | rejectDeal c k => exact (rejectDeal_ok hro).2.2.2.2.1
    | cancelDeal c k => exact (cancelDeal_ok hro).2.2.2.2.1

/-- C10: initializing the engine with `withdrawalDelay_ = 0` does not produce
a zero delay — `initialize` defaults it to 7 days (604800 seconds); a
guardian `setWithdrawalDelay(0)` call does make the effective delay 0, and no
other entry point ever changes the delay. -/
theorem claim_C10 (token_ maxPot_ admin operator guardian : Nat)
    (h0 : token_ ≠ 0) (h1 : admin ≠ 0) (h2 : operator ≠ 0) (h3 : guardian ≠ 0) :
    (∃ s0, initializeEngine token_ maxPot_ admin operator guardian 0 = .ok s0 ∧
      s0.withdrawalDelay = 604800) ∧
    (∀ (s : St) (caller : Addr), s.guardians caller = true →
      ∃ s', setWithdrawalDelay caller 0 s = .ok s' ∧ s'.withdrawalDelay = 0) ∧
    (∀ (s : St) (o : Op), (∀ c d, o ≠ Op.setWithdrawalDelay c d) →
      (next o s).withdrawalDelay = s.withdrawalDelay) := by
  refine ⟨?_, ?_, ?_⟩
  · unfold initializeEngine
    rw [if_neg (by simp [h0, h1, h2, h3])]
    exact ⟨_, rfl, rfl⟩
  · intro s caller hg
    refine ⟨{ s with withdrawalDelay := 0 }, ?_, rfl⟩
    unfold setWithdrawalDelay
    rw [if_neg (by simp [hg])]
  · intro s o hne
    exact next_withdrawalDelay hne

/-- Witness for C10 at concrete inputs: a concrete `initialize` with zero
delay yields 604800, a concrete guardian call sets 0, and a concrete
non-delay operation leaves the delay unchanged. -/
theorem claim_C10_witness :
    (∃ s0, initializeEngine 1 25000 1 2 3 0 = .ok s0 ∧ s0.withdrawalDelay = 604800) ∧
    (∃ s', setWithdrawalDelay 3 0 demoSt = .ok s' ∧ s'.withdrawalDelay = 0) ∧
    (next (Op.pauseWithdrawals 3) demoSt).withdrawalDelay = demoSt.withdrawalDelay := by
  obtain ⟨w1, w2, w3⟩ := claim_C10 1 25000 1 2 3
    (by decide) (by decide) (by decide) (by decide)
  exact ⟨w1, w2 demoSt 3 rfl, w3 demoSt (Op.pauseWithdrawals 3) (by intro c d; simp)⟩

theorem finalizeGame_eq_ok {s : St} {caller gameId : Nat} {recipients : List Addr}
    {amounts : List Nat} (hop : s.operators caller = true) (hp : s.paused = false)
    (hex : gameExists s gameId) (hlen : recipients.length = amounts.length)
    (hsum : sumList amounts = (s.games gameId).pot) :
    finalizeGame caller gameId recipients amounts s =
      .ok (creditAll
        { s with
          games := upd s.games gameId { s.games gameId with pot := 0, active := false } }
        recipients amounts) := by
  unfold finalizeGame
  rw [if_neg (by simp [hop]), if_neg (by simp [hp]), if_neg (by simp [hex]),
    if_neg (by simp [hlen]), if_neg (by simp [hsum])]

/-- C2: for an existing game and equal-length arrays, an operator's
`finalizeGame` fails (with the exact-sum error) whenever `Σ amounts` differs
from the game's pot; when the sum is exactly the pot it succeeds, the final
state is the credit loop applied to the state whose pot is already zeroed and
whose game is already inactive (effects before credits), and every account's
balance grows by exactly what the payout vector assigns it. -/
theorem claim_C2_finalize_exact_sum (s : St) (caller gameId : Nat)
    (recipients : List Addr) (amounts : List Nat)
    (hop : s.operators caller = true) (hp : s.paused = false)
    (hex : gameExists s gameId) (hlen : recipients.length = amounts.length) :
    (sumList amounts ≠ (s.games gameId).pot →
      finalizeGame caller gameId recipients amounts s = .error .InvalidFee) ∧
    (sumList amounts = (s.games gameId).pot →
      ∃ s', finalizeGame caller gameId recipients amounts s = .ok s' ∧
        s' = creditAll
          { s with
            games := upd s.games gameId { s.games gameId with pot := 0, active := false } }
          recipients amounts ∧
        (s'.games gameId).pot = 0 ∧ (s'.games gameId).active = false ∧
        ∀ a, s'.balances a = s.balances a + paidTo recipients amounts a) := by
  constructor
  · intro hsum
    unfold finalizeGame
    rw [if_neg (by simp [hop]), if_neg (by simp [hp]), if_neg (by simp [hex]),
      if_neg (by simp [hlen]), if_pos hsum]
  · intro hsum
    refine ⟨_, ?_, rfl, ?_, ?_, ?_⟩
    · exact finalizeGame_eq_ok hop hp hex hlen hsum
    · rw [creditAll_games]
      simp [upd]
    · rw [creditAll_games]
      simp [upd]
    · intro a
      rw [creditAll_balances]

/-- Witness for C2 on a concrete state with pot 11: the sum-10 vector is
rejected with the exact-sum error, and the sum-11 vector succeeds, zeroes the
pot, deactivates the game and credits recipient 7 with 11. -/
theorem claim_C2_witness :
    (finalizeGame 2 1 [7] [10] demoPotSt = .error .InvalidFee) ∧
    (∃ s', finalizeGame 2 1 [7] [11] demoPotSt = .ok s' ∧
      (s'.games 1).pot = 0 ∧ (s'.games 1).active = false ∧
      s'.balances 7 = demoPotSt.balances 7 + 11) := by
  constructor
  · exact (claim_C2_finalize_exact_sum demoPotSt 2 1 [7] [10] rfl rfl
      (by constructor <;> decide) rfl).1 (by decide)
  · obtain ⟨s', hok, _, hpot, hact, hbal⟩ :=
      (claim_C2_finalize_exact_sum demoPotSt 2 1 [7] [11] rfl rfl
        (by constructor <;> decide) rfl).2 (by decide)
    exact ⟨s', hok, hpot, hact, by rw [hbal 7]; rfl⟩

/-- C7: a second `finalizeGame` on an already-finalized game (pot 0, game
inactive) can never double-pay: every call either reverts (leaving the state
unchanged, as every revert does) or has a payout vector summing to 0 — hence
all-zero — and returns the state completely unchanged. -/
theorem claim_C7_finalize_idempotent (s : St) (caller gameId : Nat)
    (recipients : List Addr) (amounts : List Nat)
    (hpot : (s.games gameId).pot = 0) (hact : (s.games gameId).active = false) :
    (∃ e, finalizeGame caller gameId recipients amounts s = .error e) ∨
    (sumList amounts = 0 ∧ finalizeGame caller gameId recipients amounts s = .ok s) := by
  by_cases hop : s.operators caller
  swap
  · refine Or.inl ⟨.NotOperator, ?_⟩
    unfold finalizeGame
    rw [if_pos (by simp [hop])]
  by_cases hp : s.paused
  · refine Or.inl ⟨.EnforcedPause, ?_⟩
    unfold finalizeGame
    rw [if_neg (by simp [hop]), if_pos (by simp [hp])]
  by_cases hex : gameExists s gameId
  swap
  · refine Or.inl ⟨.GameNotFound gameId, ?_⟩
    unfold finalizeGame
    rw [if_neg (by simp [hop]), if_neg (by simp [hp]), if_pos hex]
  by_cases hlen : recipients.length = amounts.length
  swap
  · refine Or.inl ⟨.LengthMismatch, ?_⟩
    unfold finalizeGame
    rw [if_neg (by simp [hop]), if_neg (by simp [hp]), if_neg (by simp [hex]),
      if_pos hlen]
  by_cases hsum : sumList amounts = 0
  swap
  · refine Or.inl ⟨.InvalidFee, ?_⟩
    unfold finalizeGame
    rw [if_neg (by simp [hop]), if_neg (by simp [hp]), if_neg (by simp [hex]),
      if_neg (by simp [hlen]), if_pos (by rw [hpot]; exact hsum)]
  · refine Or.inr ⟨hsum, ?_⟩
    rw [finalizeGame_eq_ok hop (by simpa using hp) hex hlen (by rw [hpot]; exact hsum)]
    have hg : ({ s.games gameId with pot := 0, active := false } : GameInternal)
        = s.games gameId := by
      rcases hsg : s.games gameId with ⟨f, pk, pot, act⟩
      rw [hsg] at hpot hact
      simp only [] at hpot hact
      simp [hpot, hact]
    have hgames : upd s.games gameId { s.games gameId with pot := 0, active := false }
        = s.games := by
      rw [hg]
      funext x
      by_cases hx : x = gameId
      · subst hx; simp [upd]
      · simp [upd, hx]
    rw [hgames]
    rw [creditAll_zero recipients amounts _ (sumList_eq_zero hsum)]

/-- Witness for C7 at a concrete finalized game: the all-zero vector `[0]`
is accepted and returns the state unchanged (no recipient is credited). -/
theorem claim_C7_witness :
    (∃ e, finalizeGame 2 1 [7] [0] demoFinSt = .error e) ∨
    (sumList [0] = 0 ∧ finalizeGame 2 1 [7] [0] demoFinSt = .ok demoFinSt) :=
  claim_C7_finalize_idempotent demoFinSt 2 1 [7] [0] rfl rfl

/-- C5: for an existing active game whose next guess has 1-based sequence
number `k`, the fee of a successful `submitGuess` is
`feeBase + feeDelta × (k − 1)` (the value `currentGuessFee` reports); the
call records exactly one new guess at id `k`, bumps the next-guess sequence
to `k + 1`, adds the fee to the pot, and returns `k` (the pre-increment
sequence number) as the new guess id. -/
theorem claim_C5_fee_schedule (s : St) (caller gameId : Nat) (e p : String)
    (now k : Nat) (hp : s.paused = false) (hex : gameExists s gameId)
    (hact : (s.games gameId).active = true) (he : e.length ≠ 0) (hpk : p.length ≠ 0)
    (hk : s.nextGuessId gameId = k) (hk1 : 1 ≤ k) :
    currentGuessFee s gameId =
      .ok ((s.games gameId).guessFee + s.guessFeeDelta gameId * (k - 1)) ∧
    ∃ s', submitGuess caller gameId e p now s = .ok (s', k) ∧
      s'.nextGuessId gameId = k + 1 ∧
      (∀ g', g' ≠ gameId → s'.nextGuessId g' = s.nextGuessId g') ∧
      (s'.games gameId).pot =
        (s.games gameId).pot + ((s.games gameId).guessFee + s.guessFeeDelta gameId * (k - 1)) ∧
      s'.guesses gameId k = ⟨caller, e, now, p⟩ ∧
      (∀ q, q ≠ k → s'.guesses gameId q = s.guesses gameId q) ∧
      (∀ g', g' ≠ gameId → s'.guesses g' = s.guesses g') := by
  have hfee : guessFeeOf s gameId =
      (s.games gameId).guessFee + s.guessFeeDelta gameId * (k - 1) := by
    unfold guessFeeOf
    rw [hk, if_neg (by omega)]
  refine ⟨?_, ?_⟩
  · unfold currentGuessFee
    rw [if_neg (by simp [hex]), hfee]
  by_cases hcap : s.maxPot ≤ (s.games gameId).pot + guessFeeOf s gameId
  · refine ⟨{ s with
        nextGuessId := upd s.nextGuessId gameId (s.nextGuessId gameId + 1)
        guesses := upd2 s.guesses gameId (s.nextGuessId gameId) ⟨caller, e, now, p⟩
        games := upd (upd s.games gameId
            { s.games gameId with pot := (s.games gameId).pot + guessFeeOf s gameId })
          gameId
          { s.games gameId with pot := (s.games gameId).pot + guessFeeOf s gameId, active := false }
        withdrawalsPaused := true }, ?_, ?_, ?_, ?_, ?_, ?_, ?_⟩
    · unfold submitGuess
      rw [if_neg (by simp [hp]), if_neg (by simp [hex]), if_neg (by simp [hact]),
        if_neg (by simp [he, hpk]), if_pos hcap, hk]
    · simp [upd, hk]
    · intro g' hg'; simp [upd, hg']
    · simp [upd, hfee]
    · simp [upd2, upd, hk]
    · intro q hq; simp [upd2, upd, hk, hq]
    · intro g' hg'; funext q; simp [upd2, hg']
  · refine ⟨{ s with
        nextGuessId := upd s.nextGuessId gameId (s.nextGuessId gameId + 1)
        guesses := upd2 s.guesses gameId (s.nextGuessId gameId) ⟨caller, e, now, p⟩
        games := upd s.games gameId
          { s.games gameId with pot := (s.games gameId).pot + guessFeeOf s gameId } },
        ?_, ?_, ?_, ?_, ?_, ?_, ?_⟩
    · unfold submitGuess
      rw [if_neg (by simp [hp]), if_neg (by simp [hex]), if_neg (by simp [hact]),
        if_neg (by simp [he, hpk]), if_neg hcap, hk]
    · simp [upd, hk]
    · intro g' hg'; simp [upd, hg']
    · simp [upd, hfee]
    · simp [upd2, upd, hk]
    · intro q hq; simp [upd2, upd, hk, hq]
    · intro g' hg'; funext q; simp [upd2, hg']

/-- Witness for C5: on the demo game (`feeBase 5`, `feeDelta 1`) the first
guess is charged 5 and gets id 1; after one and two recorded guesses
`currentGuessFee` reports 6 and 7 (the spec's 5, 6, 7 schedule). -/
theorem claim_C5_witness :
    (∃ s', submitGuess 5 1 "e" "p" 0 demoSt = .ok (s', 1) ∧
      s'.nextGuessId 1 = 2 ∧ (s'.games 1).pot = 0 + (5 + 1 * (1 - 1)) ∧
      s'.guesses 1 1 = ⟨5, "e", 0, "p"⟩) ∧
    currentGuessFee demoSt 1 = .ok 5 ∧
    currentGuessFee demoGuessSt 1 = .ok 6 ∧
    currentGuessFee demoGuess2St 1 = .ok 7 := by
  obtain ⟨hfee, s', hok, hn, _, hpot, hg, _, _⟩ :=
    claim_C5_fee_schedule demoSt 5 1 "e" "p" 0 1 rfl
      (by constructor <;> decide) rfl (by decide) (by decide) rfl (by decide)
  exact ⟨⟨s', hok, hn, hpot, hg⟩, hfee, rfl, rfl⟩

/-- C9: `requestWithdrawal` first returns any prior pending amount to the
balance, then fails with the zero-balance error iff the resulting balance is
0 (in which case nothing was pending to begin with, so nothing stays locked),
and otherwise locks the entire resulting balance with availability
`now + delay` and zeroes the live balance; the pending mapping holds at most
one record per identity by construction. -/
theorem claim_C9_request_rollback_reissue (s : St) (caller now : Nat)
    (hp : s.paused = false) (hwp : s.withdrawalsPaused = false) :
    (s.balances caller + (s.pending caller).amount = 0 →
      requestWithdrawal caller now s = .error .WithdrawalAmountZero ∧
      (s.pending caller).amount = 0) ∧
    (s.balances caller + (s.pending caller).amount ≠ 0 →
      ∃ s', requestWithdrawal caller now s = .ok s' ∧
        s'.pending caller =
          ⟨s.balances caller + (s.pending caller).amount, now + s.withdrawalDelay⟩ ∧
        s'.balances caller = 0 ∧
        (∀ a, a ≠ caller → s'.pending a = s.pending a ∧ s'.balances a = s.balances a)) := by
  constructor
  · intro hz
    have hpa : (s.pending caller).amount = 0 := by omega
    have hb : s.balances caller = 0 := by omega
    refine ⟨?_, hpa⟩
    unfold requestWithdrawal
    simp [hp, hwp, hpa, hb]
  · intro hnz
    by_cases hpa : (s.pending caller).amount = 0
    · have hb : ¬ s.balances caller = 0 := by omega
      refine ⟨{ s with
          balances := upd s.balances caller 0
          pending := upd s.pending caller
            ⟨s.balances caller, now + s.withdrawalDelay⟩ }, ?_, ?_, ?_, ?_⟩
      · unfold requestWithdrawal
        simp [hp, hwp, hpa, hb]
      · simp [upd, hpa]
      · simp [upd]
      · intro a ha; simp [upd, ha]
    · refine ⟨{ s with
          balances := upd (upd s.balances caller
            (s.balances caller + (s.pending caller).amount)) caller 0
          pending := upd (upd s.pending caller ⟨0, 0⟩) caller
            ⟨upd s.balances caller (s.balances caller + (s.pending caller).amount) caller,
              now + s.withdrawalDelay⟩ }, ?_, ?_, ?_, ?_⟩
      · unfold requestWithdrawal
        simp [hp, hwp, hpa, hnz, upd]
      · simp [upd]
      · simp [upd]
      · intro a ha; simp [upd, ha]

/-- Witness for C9: identity 9 with balance 5 and a stale pending record of 7
gets the rollback-and-reissue — the new pending locks 12 at `now + 10`. -/
theorem claim_C9_witness :
    ∃ s', requestWithdrawal 9 0 demoWdSt = .ok s' ∧
      s'.pending 9 = ⟨12, 10⟩ ∧ s'.balances 9 = 0 := by
  obtain ⟨s', hok, hpend, hbal, _⟩ :=
    (claim_C9_request_rollback_reissue demoWdSt 9 0 rfl rfl).2 (by decide)
  exact ⟨s', hok, by rw [hpend]; decide, hbal⟩

/-- C6 counterexample: identity 9 has live balance 5 > 0 and withdrawals are
not paused, yet `requestWithdrawal` locks 12, not 5 — a stale pending record
of 7 is rolled back into the balance first, so the claim's "locks exactly b"
fails as universally stated. -/
theorem claim_C6_counterexample :
    demoWdSt.balances 9 = 5 ∧ (0 : Nat) < 5 ∧ demoWdSt.withdrawalsPaused = false ∧
    ∃ s', requestWithdrawal 9 0 demoWdSt = .ok s' ∧
      (s'.pending 9).amount = 12 ∧ (s'.pending 9).amount ≠ 5 := by
  refine ⟨rfl, by decide, rfl, _, rfl, by decide, by decide⟩

/-- C6 (amended with the no-prior-pending hypothesis the rollback forces):
for an identity with live balance `b > 0`, no pending withdrawal, and
withdrawals not paused, `requestWithdrawal` locks exactly `b`
(`pending = {b, now + delay}`, balance 0); `claimWithdrawal` then fails with
`WithdrawalNotReady` strictly before `now + delay`, and at or after it
succeeds, transfers exactly `b`, and leaves `pending.amount = 0`. -/
theorem claim_C6_withdrawal_roundtrip (s : St) (id now b : Nat)
    (hp : s.paused = false) (hwp : s.withdrawalsPaused = false)
    (hb : s.balances id = b) (hb0 : 0 < b) (hpend : (s.pending id).amount = 0) :
    ∃ s₁, requestWithdrawal id now s = .ok s₁ ∧
      s₁.pending id = ⟨b, now + s.withdrawalDelay⟩ ∧ s₁.balances id = 0 ∧
      (∀ t, t < now + s.withdrawalDelay →
        claimWithdrawal id t s₁ = .error (.WithdrawalNotReady (now + s.withdrawalDelay))) ∧
      (∀ t, now + s.withdrawalDelay ≤ t →
        ∃ s₂, claimWithdrawal id t s₁ = .ok (s₂, b) ∧ (s₂.pending id).amount = 0) := by
  have hbne : ¬ s.balances id = 0 := by omega
  have hbne' : ¬ b = 0 := by omega
  refine ⟨{ s with
      balances := upd s.balances id 0
      pending := upd s.pending id ⟨s.balances id, now + s.withdrawalDelay⟩ },
    ?_, ?_, ?_, ?_, ?_⟩
  · unfold requestWithdrawal
    simp [hp, hwp, hpend, hbne]
  · simp [upd, hb]
  · simp [upd]
  · intro t ht
    unfold claimWithdrawal
    simp [hp, hwp, upd, hb, hbne', ht]
  · intro t ht
    have hnl : ¬ t < now + s.withdrawalDelay := by omega
    refine ⟨{ s with
        balances := upd s.balances id 0
        pending := upd (upd s.pending id ⟨s.balances id, now + s.withdrawalDelay⟩) id
          ⟨0, 0⟩ }, ?_, ?_⟩
    · unfold claimWithdrawal
      simp [hp, hwp, upd, hb, hbne', hnl]
    · simp [upd]

/-- Witness for the amended C6 on the demo state (delay 10, balance 5): the
request locks `{5, 10}`; claiming at `t = 5` is rejected as not ready and at
`t = 11` pays out exactly 5 and clears the pending record (Scenario E). -/
theorem claim_C6_witness :
    ∃ s₁, requestWithdrawal 9 0 demoBalSt = .ok s₁ ∧
      s₁.pending 9 = ⟨5, 10⟩ ∧
      claimWithdrawal 9 5 s₁ = .error (.WithdrawalNotReady 10) ∧
      ∃ s₂, claimWithdrawal 9 11 s₁ = .ok (s₂, 5) ∧ (s₂.pending 9).amount = 0 := by
  obtain ⟨s₁, hreq, hpend, _, hearly, hlate⟩ :=
    claim_C6_withdrawal_roundtrip demoBalSt 9 0 5 rfl rfl rfl (by decide) rfl
  obtain ⟨s₂, hok, hzero⟩ := hlate 11 (by decide)
  refine ⟨s₁, hreq, by rw [hpend]; decide, ?_, s₂, ?_, hzero⟩
  · rw [hearly 5 (by decide)]
    rfl
  · rw [hok]

/-- C8 counterexample: with `shareBps = 0` (out of range) and an unrecorded
`guessId = 5`, `proposeDeal` fails with `InvalidGuessReference`, not with the
invalid-share error the claim promises for every out-of-range share — the
guess-reference range check runs before the share-range check. -/
theorem claim_C8_counterexample :
    ¬ (1 ≤ (0 : Nat) ∧ (0 : Nat) ≤ 10000) ∧
    proposeDeal 9 1 5 7 0 0 demoGuessSt = .error (.InvalidGuessReference 1 5) ∧
    ∀ b, proposeDeal 9 1 5 7 0 0 demoGuessSt ≠ .error (.InvalidPotShareBps b) := by
  refine ⟨by decide, rfl, ?_⟩
  intro b h
  rw [show proposeDeal 9 1 5 7 0 0 demoGuessSt = .error (.InvalidGuessReference 1 5)
    from rfl] at h
  exact Err.noConfusion (Except.error.inj h)

/-- C8 (amended to the source's check order — the guess-id range check
precedes the share-range check, which precedes the ownership check; a zero
owner address is rejected separately before the share check): `proposeDeal`
fails with `InvalidGuessReference` unless `guessId` is a recorded guess id;
then with `InvalidPotShareBps` unless `1 ≤ shareBps ≤ 10000`; then with
`InvalidGuessReference` unless the recorded owner equals the stated owner;
then with `OutgoingSharesExceeded(accepted, reserved, attempted)` when
`accepted + reserved + shareBps > 10000`; and otherwise creates a `Pending`
deal, appends it to the owner's pending index (recording its position), and
increases the viewer's reserved share by exactly `shareBps`. -/
theorem claim_C8_propose_checks (s : St) (caller gameId guessId ow bps now : Nat)
    (hp : s.paused = false) (hex : gameExists s gameId) (how : ow ≠ 0) :
    (¬ (guessId ≠ 0 ∧ guessId < s.nextGuessId gameId) →
      proposeDeal caller gameId guessId ow bps now s =
        .error (.InvalidGuessReference gameId guessId)) ∧
    (guessId ≠ 0 → guessId < s.nextGuessId gameId → ¬ (1 ≤ bps ∧ bps ≤ 10000) →
      proposeDeal caller gameId guessId ow bps now s =
        .error (.InvalidPotShareBps bps)) ∧
    (guessId ≠ 0 → guessId < s.nextGuessId gameId → 1 ≤ bps → bps ≤ 10000 →
      (s.guesses gameId guessId).player ≠ ow →
      proposeDeal caller gameId guessId ow bps now s =
        .error (.InvalidGuessReference gameId guessId)) ∧
    (guessId ≠ 0 → guessId < s.nextGuessId gameId → 1 ≤ bps → bps ≤ 10000 →
      (s.guesses gameId guessId).player = ow →
      (s.viewerGame caller gameId).acceptedBps +
        (s.viewerGame caller gameId).reservedBps + bps > 10000 →
      proposeDeal caller gameId guessId ow bps now s =
        .error (.OutgoingSharesExceeded caller gameId
          (s.viewerGame caller gameId).acceptedBps
          (s.viewerGame caller gameId).reservedBps bps)) ∧
    (guessId ≠ 0 → guessId < s.nextGuessId gameId → 1 ≤ bps → bps ≤ 10000 →
      (s.guesses gameId guessId).player = ow →
      (s.viewerGame caller gameId).acceptedBps +
        (s.viewerGame caller gameId).reservedBps + bps ≤ 10000 →
      ∃ s', proposeDeal caller gameId guessId ow bps now s = .ok (s', s.nextDealId) ∧
        s'.deals s.nextDealId = ⟨gameId, guessId, ow, caller, bps, .Pending, now⟩ ∧
        s'.nextDealId = s.nextDealId + 1 ∧
        s'.pendingDealsByOwner ow = s.pendingDealsByOwner ow ++ [s.nextDealId] ∧
        s'.pendingIndex s.nextDealId = (s.pendingDealsByOwner ow).length + 1 ∧
        (s'.viewerGame caller gameId).reservedBps =
          (s.viewerGame caller gameId).reservedBps + bps ∧
        (s'.viewerGame caller gameId).acceptedBps =
          (s.viewerGame caller gameId).acceptedBps) := by
  refine ⟨?_, ?_, ?_, ?_, ?_⟩
  · intro hq
    unfold proposeDeal
    rw [if_neg (by simp [hp]), if_neg (by simp [hex]), if_pos hq]
  · intro hq1 hq2 hb
    unfold proposeDeal
    rw [if_neg (by simp [hp]), if_neg (by simp [hex]), if_neg (by simp [hq1, hq2]),
      if_neg (by simp [how]), if_pos (by omega)]
  · intro hq1 hq2 hb1 hb2 hne
    unfold proposeDeal
    rw [if_neg (by simp [hp]), if_neg (by simp [hex]), if_neg (by simp [hq1, hq2]),
      if_neg (by simp [how]), if_neg (by omega), if_pos hne]
  · intro hq1 hq2 hb1 hb2 heq hover
    unfold proposeDeal
    rw [if_neg (by simp [hp]), if_neg (by simp [hex]), if_neg (by simp [hq1, hq2]),
      if_neg (by simp [how]), if_neg (by omega), if_neg (by simp [heq]),
      if_pos (by omega)]
  · intro hq1 hq2 hb1 hb2 heq hsum
    refine ⟨{ s with
        nextDealId := s.nextDealId + 1
        deals := upd s.deals s.nextDealId ⟨gameId, guessId, ow, caller, bps, .Pending, now⟩
        pendingIndex := upd s.pendingIndex s.nextDealId
          ((s.pendingDealsByOwner ow).length + 1)
        pendingDealsByOwner := upd s.pendingDealsByOwner ow
          (s.pendingDealsByOwner ow ++ [s.nextDealId])
        viewerGame := upd2 s.viewerGame caller gameId
          { s.viewerGame caller gameId with
            reservedBps := ((s.viewerGame caller gameId).reservedBps + bps) % 65536 } },
      ?_, ?_, ?_, ?_, ?_, ?_, ?_⟩
    · unfold proposeDeal
      rw [if_neg (by simp [hp]), if_neg (by simp [hex]), if_neg (by simp [hq1, hq2]),
        if_neg (by simp [how]), if_neg (by omega), if_neg (by simp [heq]),
        if_neg (by omega)]
    · simp [upd]
    · rfl
    · simp [upd]
    · simp [upd]
    · have hlt : (s.viewerGame caller gameId).reservedBps + bps < 65536 := by omega
      simp [upd2, upd, Nat.mod_eq_of_lt hlt]
    · simp [upd2, upd]

/-- Witness for the amended C8: on the demo state with a recorded guess of
player 7, viewer 9 proposing 6000 bps on it succeeds as deal 1, reserving
6000 bps, while the out-of-range share 0 on the same valid guess is rejected
with the invalid-share error. -/
theorem claim_C8_witness :
    (proposeDeal 9 1 1 7 0 0 demoGuessSt = .error (.InvalidPotShareBps 0)) ∧
    ∃ s', proposeDeal 9 1 1 7 6000 0 demoGuessSt = .ok (s', 1) ∧
      s'.deals 1 = ⟨1, 1, 7, 9, 6000, .Pending, 0⟩ ∧
      (s'.viewerGame 9 1).reservedBps = 6000 ∧
      s'.pendingDealsByOwner 7 = [1] := by
  obtain ⟨e1, e2, e3, e4, hokk⟩ :=
    claim_C8_propose_checks demoGuessSt 9 1 1 7 6000 0 rfl
      (by constructor <;> decide) (by decide)
  obtain ⟨s', hok, hdeal, _, hlist, _, hres, _⟩ :=
    hokk (by decide) (by decide) (by decide) (by decide) rfl (by decide)
  refine ⟨?_, s', hok, hdeal, by rw [hres]; decide, by rw [hlist]; decide⟩
  exact (claim_C8_propose_checks demoGuessSt 9 1 1 7 0 0 rfl
    (by constructor <;> decide) (by decide)).2.1 (by decide) (by decide) (by decide)

/-- C3: the withdrawals-paused latch is monotone and cap-triggered: once true
it survives every entry point except a guardian's `unpauseWithdrawals`, and
whenever a transaction flips it from false to true, that transaction is
either the guardian's explicit `pauseWithdrawals` or a successful
`submitGuess` whose resulting pot reached `maxPot` — which also left that
game inactive. -/
theorem claim_C3_latch_monotone (s : St) (o : Op) :
    (s.withdrawalsPaused = true → (∀ c, o ≠ Op.unpauseWithdrawals c) →
      (next o s).withdrawalsPaused = true) ∧
    (s.withdrawalsPaused = false → (next o s).withdrawalsPaused = true →
      (∃ c, o = Op.pauseWithdrawals c) ∨
      (∃ c g e p now, o = Op.submitGuess c g e p now ∧
        ∃ s' gid, submitGuess c g e p now s = .ok (s', gid) ∧ next o s = s' ∧
          s'.maxPot ≤ (s'.games g).pot ∧ (s'.games g).active = false ∧
          s'.withdrawalsPaused = true)) := by
  constructor
  · intro hw hne
    unfold next
    cases hro : runOp o s with
    | error e => exact hw
    | ok s2 =>
      show s2.withdrawalsPaused = true
      cases o with
      | requestWithdrawal c now => rw [(requestWithdrawal_ok hro).2.1]; exact hw
      | claimWithdrawal c now =>
        obtain ⟨v, hf⟩ := map_fst_ok hro
        rw [(claimWithdrawal_ok hf).2.1]; exact hw
      | submitGuess c g e p now =>
        obtain ⟨v, hf⟩ := map_fst_ok hro
        obtain ⟨_, _, _, _, _, _, _, _, _, _, _, _, _, _, hcap⟩ := submitGuess_ok hf
        rcases hcap with ⟨_, _, hw2⟩ | ⟨_, _, hw2⟩ <;> rw [hw2] <;> exact hw
      | createGame c pk fee =>
        obtain ⟨v, hf⟩ := map_fst_ok hro
        rw [(createGame_ok hf).2.1]; exact hw
      | setGuessFee c g f => rw [(setGuessFee_ok hro).2.1]; exact hw
      | setGuessFeeDelta c g d => rw [(setGuessFeeDelta_ok hro).2.1]; exact hw
      | setGamePublicKey c g pk => rw [(setGamePublicKey_ok hro).2.1]; exact hw
      | finalizeGame c g rs amts => rw [(finalizeGame_ok hro).2.1]; exact hw
      | setWithdrawalDelay c d => rw [(setWithdrawalDelay_ok hro).2.1]; exact hw
      | pauseWithdrawals c => exact (pauseWithdrawals_ok hro).2.1
      | unpauseWithdrawals c => exact absurd rfl (hne c)
      | pause c => rw [(pause_ok hro).2.1]; exact hw
      | unpause c => rw [(unpause_ok hro).2.1]; exact hw
      | proposeDeal c g q ow bps now =>
        obtain ⟨v, hf⟩ := map_fst_ok hro
        obtain ⟨_, _, _, _, _, _, _, _, rfl⟩ := proposeDeal_ok hf
        exact hw
      | acceptDeal c k => rw [(acceptDeal_ok hro).2.2.2.2.2.2.1]; exact hw
      | rejectDeal c k => rw [(rejectDeal_ok hro).2.2.2.2.2.1]; exact hw
      | cancelDeal c k => rw [(cancelDeal_ok hro).2.2.2.2.2.1]; exact hw
  · intro hw htrue
    unfold next at htrue
    cases hro : runOp o s with
    | error e => rw [hro] at htrue; rw [htrue] at hw; exact absurd hw (by simp)
    | ok s2 =>
      rw [hro] at htrue
      cases o with
      | requestWithdrawal c now =>
        rw [(requestWithdrawal_ok hro).2.1] at htrue; simp [hw] at htrue
      | claimWithdrawal c now =>
        obtain ⟨v, hf⟩ := map_fst_ok hro
        rw [(claimWithdrawal_ok hf).2.1] at htrue; simp [hw] at htrue
      | submitGuess c g e p now =>
        obtain ⟨v, hf⟩ := map_fst_ok hro
        obtain ⟨_, _, _, _, _, _, _, _, _, _, hmax, _, _, _, hcap⟩ := submitGuess_ok hf
        rcases hcap with ⟨hle, hgames, hw2⟩ | ⟨_, _, hw2⟩
        · refine Or.inr ⟨c, g, e, p, now, rfl, s2, v, hf, by simp [next, hro], ?_, ?_, hw2⟩
          · rw [hmax, hgames]; simp [upd]; exact hle
          · rw [hgames]; simp [upd]
        · rw [hw2] at htrue; simp [hw] at htrue
      | createGame c pk fee =>
        obtain ⟨v, hf⟩ := map_fst_ok hro
        rw [(createGame_ok hf).2.1] at htrue; simp [hw] at htrue
      | setGuessFee c g f => rw [(setGuessFee_ok hro).2.1] at htrue; simp [hw] at htrue
      | setGuessFeeDelta c g d =>
        rw [(setGuessFeeDelta_ok hro).2.1] at htrue; simp [hw] at htrue
      | setGamePublicKey c g pk =>
        rw [(setGamePublicKey_ok hro).2.1] at htrue; simp [hw] at htrue
      | finalizeGame c g rs amts =>
        rw [(finalizeGame_ok hro).2.1] at htrue; simp [hw] at htrue
      | setWithdrawalDelay c d =>
        rw [(setWithdrawalDelay_ok hro).2.1] at htrue; simp [hw] at htrue
      | pauseWithdrawals c => exact Or.inl ⟨c, rfl⟩
      | unpauseWithdrawals c =>
        rw [(unpauseWithdrawals_ok hro).2.1] at htrue; exact absurd htrue (by simp)
      | pause c => rw [(pause_ok hro).2.1] at htrue; simp [hw] at htrue
      | unpause c => rw [(unpause_ok hro).2.1] at htrue; simp [hw] at htrue
      | proposeDeal c g q ow bps now =>
        obtain ⟨v, hf⟩ := map_fst_ok hro
        obtain ⟨_, _, _, _, _, _, _, _, rfl⟩ := proposeDeal_ok hf
        simp [hw] at htrue
      | acceptDeal c k =>
        rw [(acceptDeal_ok hro).2.2.2.2.2.2.1] at htrue; simp [hw] at htrue
      | rejectDeal c k =>
        rw [(rejectDeal_ok hro).2.2.2.2.2.1] at htrue; simp [hw] at htrue
      | cancelDeal c k =>
        rw [(cancelDeal_ok hro).2.2.2.2.2.1] at htrue; simp [hw] at htrue

/-- Witness for C3: on a latched demo state a fee update keeps the latch; on
a low-cap demo state the first guess flips the latch, and the theorem
attributes the flip to that submitGuess reaching the cap. -/
theorem claim_C3_witness :
    (next (Op.setGuessFee 2 1 9) demoPausedSt).withdrawalsPaused = true ∧
    ((∃ c, (Op.submitGuess 5 1 "e" "p" 0 : Op) = Op.pauseWithdrawals c) ∨
      (∃ c g e p now, (Op.submitGuess 5 1 "e" "p" 0 : Op) = Op.submitGuess c g e p now ∧
        ∃ s' gid, submitGuess c g e p now demoCapSt = .ok (s', gid) ∧
          next (Op.submitGuess 5 1 "e" "p" 0) demoCapSt = s' ∧
          s'.maxPot ≤ (s'.games g).pot ∧ (s'.games g).active = false ∧
          s'.withdrawalsPaused = true)) := by
  constructor
  · exact (claim_C3_latch_monotone demoPausedSt (Op.setGuessFee 2 1 9)).1 rfl
      (by intro c; simp)
  · exact (claim_C3_latch_monotone demoCapSt (Op.submitGuess 5 1 "e" "p" 0)).2 rfl
      (by decide)

end GuessGame

namespace TS

/-- C4 (bug evidence): `distributeRevenueGraph` does not pay out exactly the
amount passed in.  On the store where viewer `"a"` has two accepted 100%
deals in game `"g"` — a state the coordination routes allow, since they
validate each `potSharePercent` only individually against `(0, 100]` — an
input of 10 produces payment events totalling 20: the computed
`Math.min(totalPct, 100)` clamp of the node's total outgoing percentage is
never applied when the per-edge shares are allocated. -/
theorem claim_C4_distribution_overpays :
    distributeRevenueGraph cexDeals "g" "a" 10 = some [("b", 10), ("c", 10)] ∧
    sumEvents [("b", 10), ("c", 10)] = 20 ∧
    paidAt [("b", 10), ("c", 10)] "b" = 10 ∧
    paidAt [("b", 10), ("c", 10)] "c" = 10 ∧
    (20 : Nat) ≠ 10 := by
  exact ⟨by decide, by decide, by decide, by decide, by decide⟩

end TS

namespace GuessGame

/-! The inductive invariant behind C1: `Good` (declared with the data model
above) holds in every reachable state.  `reservedSum` ties each
`(viewer, game)` reservation counter to the pending deals that account
for it. -/

theorem upd_same {α : Type} (f : Nat → α) (k : Nat) (v : α) : upd f k v k = v := by
  simp [upd]

theorem pendingWeight_default (v : Addr) (g : Nat) : pendingWeight defaultDeal v g = 0 := by
  unfold pendingWeight defaultDeal
  split <;> rfl

theorem sum_range_upd (n k : Nat) (hk : k < n) (f f' : Nat → Nat)
    (hoff : ∀ i, i ≠ k → f' i = f i) :
    (∑ i ∈ Finset.range n, f' i) + f k = (∑ i ∈ Finset.range n, f i) + f' k := by
  have hm : k ∈ Finset.range n := Finset.mem_range.mpr hk
  have h1 := Finset.add_sum_erase (Finset.range n) f' hm
  have h2 := Finset.add_sum_erase (Finset.range n) f hm
  have h3 : ∑ i ∈ (Finset.range n).erase k, f' i = ∑ i ∈ (Finset.range n).erase k, f i :=
    Finset.sum_congr rfl fun i hi => hoff i (Finset.ne_of_mem_erase hi)
  omega

theorem Good_frame {s t : St} (hg : Good s) (hd : t.deals = s.deals)
    (hv : t.viewerGame = s.viewerGame) (hn : t.nextDealId = s.nextDealId) : Good t := by
  constructor
  · intro v g; rw [hv]; exact hg.vg_cap v g
  · intro v g
    rw [hv]
    unfold reservedSum
    rw [hd, hn]
    exact hg.reserved_eq v g
  · intro id hid
    rw [hd]
    exact hg.deals_unset id (by rw [hn] at hid; exact hid)

theorem Good_inited {s : St} (h : Inited s) : Good s := by
  obtain ⟨t, m, a, op, gu, w, heq⟩ := h
  unfold initializeEngine at heq
  split_ifs at heq with h0 h1 <;>
    first
      | exact Except.noConfusion heq
      | (obtain rfl := Except.ok.inj heq
         constructor
         · intro v g; simp [blankSt, defaultVGS]
         · intro v g
           simp [blankSt, defaultVGS, reservedSum, pendingWeight_default]
         · intro id _; rfl)

theorem Good_propose {s s2 : St} {c g q ow bps now did : Nat} (hg : Good s)
    (hf : proposeDeal c g q ow bps now s = .ok (s2, did)) : Good s2 := by
  obtain ⟨hp, hex, hq, how, hbps, hown, hsum, hdid, heq⟩ := proposeDeal_ok hf
  have hvg : s2.viewerGame = upd2 s.viewerGame c g
      { s.viewerGame c g with
        reservedBps := ((s.viewerGame c g).reservedBps + bps) % 65536 } := by
    rw [heq]
  have hdeals : s2.deals = upd s.deals s.nextDealId ⟨g, q, ow, c, bps, .Pending, now⟩ := by
    rw [heq]
  have hn : s2.nextDealId = s.nextDealId + 1 := by rw [heq]
  constructor
  · intro v' g'
    rw [hvg]
    by_cases hv' : v' = c
    · rw [hv']
      by_cases hg' : g' = g
      · rw [hg']
        have hcap := hg.vg_cap c g
        simp [upd2, upd]
        omega
      · simp [upd2, upd, hg', hg.vg_cap c g']
    · simp [upd2, upd, hv', hg.vg_cap v' g']
  · intro v' g'
    have e : reservedSum s2 v' g' =
        reservedSum s v' g' +
          pendingWeight ⟨g, q, ow, c, bps, .Pending, now⟩ v' g' := by
      unfold reservedSum
      rw [hn, hdeals, Finset.sum_range_succ]
      congr 1
      · exact Finset.sum_congr rfl fun i hi => by
          rw [upd_apply, if_neg (Nat.ne_of_lt (Finset.mem_range.mp hi))]
      · rw [upd_same]
    rw [hvg, e]
    by_cases hv' : v' = c
    · rw [hv']
      by_cases hg' : g' = g
      · rw [hg']
        have hw : pendingWeight ⟨g, q, ow, c, bps, .Pending, now⟩ c g = bps := by
          unfold pendingWeight
          rw [if_pos ⟨rfl, rfl, rfl⟩]
        rw [hw, ← hg.reserved_eq c g]
        simp [upd2, upd]
        omega
      · have hw : pendingWeight ⟨g, q, ow, c, bps, .Pending, now⟩ c g' = 0 := by
          unfold pendingWeight
          rw [if_neg]
          rintro ⟨-, h2, -⟩
          exact hg' h2.symm
        rw [hw, ← hg.reserved_eq c g']
        simp [upd2, upd, hg']
    · have hw : pendingWeight ⟨g, q, ow, c, bps, .Pending, now⟩ v' g' = 0 := by
        unfold pendingWeight
        rw [if_neg]
        rintro ⟨h1, -, -⟩
        exact hv' h1.symm
      rw [hw, ← hg.reserved_eq v' g']
      simp [upd2, upd, hv']
  · intro id hid
    rw [hn] at hid
    rw [hdeals, upd_apply, if_neg (by omega)]
    exact hg.deals_unset id (by omega)

theorem Good_accept {s s2 : St} {c k : Nat} (hg : Good s)
    (hf : acceptDeal c k s = .ok s2) : Good s2 := by
  obtain ⟨hp, hown, hstat, hc, hacc, hwd, hwp, hn, hdeals, hvg⟩ := acceptDeal_ok hf
  have hk : k < s.nextDealId := by
    by_contra hk'
    exact hown (by rw [hg.deals_unset k (by omega)]; rfl)
  have hterm : pendingWeight (s.deals k) (s.deals k).viewer (s.deals k).gameId
      = (s.deals k).potShareBps := by
    unfold pendingWeight
    rw [if_pos ⟨rfl, rfl, hstat⟩]
  have hres_ge : (s.deals k).potShareBps ≤
      (s.viewerGame (s.deals k).viewer (s.deals k).gameId).reservedBps := by
    rw [hg.reserved_eq, ← hterm]
    unfold reservedSum
    exact @Finset.single_le_sum ℕ ℕ _
      (fun i => pendingWeight (s.deals i) (s.deals k).viewer (s.deals k).gameId)
      (Finset.range s.nextDealId) (fun i _ => Nat.zero_le _) k (Finset.mem_range.mpr hk)
  have hcap0 := hg.vg_cap (s.deals k).viewer (s.deals k).gameId
  constructor
  · intro v' g'
    rw [hvg]
    by_cases hv' : v' = (s.deals k).viewer
    · rw [hv']
      by_cases hg' : g' = (s.deals k).gameId
      · rw [hg']
        simp [upd2, upd, hres_ge]
        omega
      · simp [upd2, upd, hg', hg.vg_cap (s.deals k).viewer g']
    · simp [upd2, upd, hv', hg.vg_cap v' g']
  · intro v' g'
    have e : (∑ i ∈ Finset.range s.nextDealId,
          pendingWeight (upd s.deals k { s.deals k with status := .Accepted } i) v' g') +
        pendingWeight (s.deals k) v' g' =
        (∑ i ∈ Finset.range s.nextDealId, pendingWeight (s.deals i) v' g') +
        pendingWeight { s.deals k with status := .Accepted } v' g' := by
      simpa [upd_same] using sum_range_upd s.nextDealId k hk
        (fun i => pendingWeight (s.deals i) v' g')
        (fun i => pendingWeight (upd s.deals k { s.deals k with status := .Accepted } i) v' g')
        (fun i hi => by simp [upd, hi])
    have hzero : pendingWeight { s.deals k with status := DealStatus.Accepted } v' g' = 0 := by
      simp [pendingWeight]
    rw [hzero] at e
    have hs2 : reservedSum s2 v' g' = ∑ i ∈ Finset.range s.nextDealId,
        pendingWeight (upd s.deals k { s.deals k with status := .Accepted } i) v' g' := by
      unfold reservedSum
      rw [hn, hdeals]
    rw [hvg, hs2]
    by_cases hv' : v' = (s.deals k).viewer
    · rw [hv']
      by_cases hg' : g' = (s.deals k).gameId
      · rw [hg']
        rw [hv', hg', hterm] at e
        have hr := hg.reserved_eq (s.deals k).viewer (s.deals k).gameId
        unfold reservedSum at hr
        conv_lhs => simp [upd2, upd]
        rw [if_pos hres_ge]
        omega
      · have hw0 : pendingWeight (s.deals k) (s.deals k).viewer g' = 0 := by
          unfold pendingWeight
          rw [if_neg]
          rintro ⟨-, h2, -⟩
          exact hg' h2.symm
        rw [hv', hw0] at e
        have hr := hg.reserved_eq (s.deals k).viewer g'
        unfold reservedSum at hr
        conv_lhs => simp [upd2, upd, hg']
        omega
    · have hw0 : pendingWeight (s.deals k) v' g' = 0 := by
        unfold pendingWeight
        rw [if_neg]
        rintro ⟨h1, -, -⟩
        exact hv' h1.symm
      rw [hw0] at e
      have hr := hg.reserved_eq v' g'
      unfold reservedSum at hr
      conv_lhs => simp [upd2, upd, hv']
      omega
  · intro id hid
    rw [hn] at hid
    rw [hdeals, upd_apply, if_neg (by omega)]
    exact hg.deals_unset id hid

theorem Good_release {s s2 : St} {k : Nat} {st' : DealStatus} (hg : Good s)
    (hstat : (s.deals k).status = .Pending) (hown : (s.deals k).owner ≠ 0)
    (hner : st' ≠ .Pending)
    (hn : s2.nextDealId = s.nextDealId)
    (hdeals : s2.deals = upd s.deals k { s.deals k with status := st' })
    (hvg : s2.viewerGame = upd2 s.viewerGame (s.deals k).viewer (s.deals k).gameId
      { s.viewerGame (s.deals k).viewer (s.deals k).gameId with
        reservedBps :=
          if (s.deals k).potShareBps ≤
              (s.viewerGame (s.deals k).viewer (s.deals k).gameId).reservedBps then
            ((s.viewerGame (s.deals k).viewer (s.deals k).gameId).reservedBps -
              (s.deals k).potShareBps) % 65536
          else 0 }) : Good s2 := by
  have hk : k < s.nextDealId := by
    by_contra hk'
    exact hown (by rw [hg.deals_unset k (by omega)]; rfl)
  have hterm : pendingWeight (s.deals k) (s.deals k).viewer (s.deals k).gameId
      = (s.deals k).potShareBps := by
    unfold pendingWeight
    rw [if_pos ⟨rfl, rfl, hstat⟩]
  have hres_ge : (s.deals k).potShareBps ≤
      (s.viewerGame (s.deals k).viewer (s.deals k).gameId).reservedBps := by
    rw [hg.reserved_eq, ← hterm]
    unfold reservedSum
    exact @Finset.single_le_sum ℕ ℕ _
      (fun i => pendingWeight (s.deals i) (s.deals k).viewer (s.deals k).gameId)
      (Finset.range s.nextDealId) (fun i _ => Nat.zero_le _) k (Finset.mem_range.mpr hk)
  have hcap0 := hg.vg_cap (s.deals k).viewer (s.deals k).gameId
  constructor
  · intro v' g'
    rw [hvg]
    by_cases hv' : v' = (s.deals k).viewer
    · rw [hv']
      by_cases hg' : g' = (s.deals k).gameId
      · rw [hg']
        simp [upd2, upd, hres_ge]
        omega
      · simp [upd2, upd, hg', hg.vg_cap (s.deals k).viewer g']
    · simp [upd2, upd, hv', hg.vg_cap v' g']
  · intro v' g'
    have e : (∑ i ∈ Finset.range s.nextDealId,
          pendingWeight (upd s.deals k { s.deals k with status := st' } i) v' g') +
        pendingWeight (s.deals k) v' g' =
        (∑ i ∈ Finset.range s.nextDealId, pendingWeight (s.deals i) v' g') +
        pendingWeight { s.deals k with status := st' } v' g' := by
      simpa [upd_same] using sum_range_upd s.nextDealId k hk
        (fun i => pendingWeight (s.deals i) v' g')
        (fun i => pendingWeight (upd s.deals k { s.deals k with status := st' } i) v' g')
        (fun i hi => by simp [upd, hi])
    have hzero : pendingWeight { s.deals k with status := st' } v' g' = 0 := by
      unfold pendingWeight
      rw [if_neg]
      rintro ⟨-, -, h3⟩
      exact hner h3
    rw [hzero] at e
    have hs2 : reservedSum s2 v' g' = ∑ i ∈ Finset.range s.nextDealId,
        pendingWeight (upd s.deals k { s.deals k with status := st' } i) v' g' := by
      unfold reservedSum
      rw [hn, hdeals]
    rw [hvg, hs2]
    by_cases hv' : v' = (s.deals k).viewer
    · rw [hv']
      by_cases hg' : g' = (s.deals k).gameId
      · rw [hg']
        rw [hv', hg', hterm] at e
        have hr := hg.reserved_eq (s.deals k).viewer (s.deals k).gameId
        unfold reservedSum at hr
        conv_lhs => simp [upd2, upd]
        rw [if_pos hres_ge]
        omega
      · have hw0 : pendingWeight (s.deals k) (s.deals k).viewer g' = 0 := by
          unfold pendingWeight
          rw [if_neg]
          rintro ⟨-, h2, -⟩
          exact hg' h2.symm
        rw [hv', hw0] at e
        have hr := hg.reserved_eq (s.deals k).viewer g'
        unfold reservedSum at hr
        conv_lhs => simp [upd2, upd, hg']
        omega
    · have hw0 : pendingWeight (s.deals k) v' g' = 0 := by
        unfold pendingWeight
        rw [if_neg]
        rintro ⟨h1, -, -⟩
        exact hv' h1.symm
      rw [hw0] at e
      have hr := hg.reserved_eq v' g'
      unfold reservedSum at hr
      conv_lhs => simp [upd2, upd, hv']
      omega
  · intro id hid
    rw [hn] at hid
    rw [hdeals, upd_apply, if_neg (by omega)]
    exact hg.deals_unset id hid

theorem Good_of_DealFrame {s t : St} (hg : Good s) (h : DealFrame s t) : Good t :=
  Good_frame hg h.1 h.2.1 h.2.2

/-- Every entry point preserves the share invariant `Good`: a reverted call
leaves the storage unchanged and every successful call is covered by the
per-operation lemmas. -/
theorem Good_next (o : Op) (s : St) (hg : Good s) : Good (next o s) := by
  unfold next
  cases hok : runOp o s with
  | error e => exact hg
  | ok s' =>
    cases o with
    | requestWithdrawal c now =>
      exact Good_of_DealFrame hg (requestWithdrawal_ok hok).2.2
    | claimWithdrawal c now =>
      obtain ⟨r, heq⟩ := map_fst_ok hok
      exact Good_of_DealFrame hg (claimWithdrawal_ok heq).2.2
    | submitGuess c g e p now =>
      obtain ⟨r, heq⟩ := map_fst_ok hok
      exact Good_of_DealFrame hg (submitGuess_ok heq).2.2.2.2.2.2.2.2.2.2.2.1
    | createGame c pk fee =>
      obtain ⟨r, heq⟩ := map_fst_ok hok
      exact Good_of_DealFrame hg (createGame_ok heq).2.2
    | setGuessFee c g f =>
      exact Good_of_DealFrame hg (setGuessFee_ok hok).2.2
    | setGuessFeeDelta c g d =>
      exact Good_of_DealFrame hg (setGuessFeeDelta_ok hok).2.2
    | setGamePublicKey c g pk =>
      exact Good_of_DealFrame hg (setGamePublicKey_ok hok).2.2
    | finalizeGame c g rs amts =>
      exact Good_of_DealFrame hg (finalizeGame_ok hok).2.2
    | setWithdrawalDelay c d =>
      exact Good_of_DealFrame hg (setWithdrawalDelay_ok hok).2.2
    | pauseWithdrawals c =>
      exact Good_of_DealFrame hg (pauseWithdrawals_ok hok).2.2.2
    | unpauseWithdrawals c =>
      exact Good_of_DealFrame hg (unpauseWithdrawals_ok hok).2.2.2
    | pause c =>
      exact Good_of_DealFrame hg (pause_ok hok).2.2
    | unpause c =>
      exact Good_of_DealFrame hg (unpause_ok hok).2.2
    | proposeDeal c g q ow bps now =>
      obtain ⟨r, heq⟩ := map_fst_ok hok
      exact Good_propose hg heq
    | acceptDeal c k =>
      exact Good_accept hg hok
    | rejectDeal c k =>
      obtain ⟨-, hown, hstat, -, -, -, hn, hdeals, hvg⟩ := rejectDeal_ok hok
      exact Good_release hg hstat hown (fun h => DealStatus.noConfusion h) hn hdeals hvg
    | cancelDeal c k =>
      obtain ⟨-, hown, hstat, -, -, -, hn, hdeals, hvg⟩ := cancelDeal_ok hok
      exact Good_release hg hstat hown (fun h => DealStatus.noConfusion h) hn hdeals hvg

/-- C1: for every `(viewer, gameId)` pair, after any sequence of entry-point
calls — in particular any mix of `proposeDeal`, `acceptDeal`, `rejectDeal`
and `cancelDeal` — starting from an initialized state, the viewer-game record
satisfies `acceptedBps + reservedBps ≤ 10000`. -/
theorem claim_C1_share_cap_invariant (s0 s : St) (hinit : Inited s0)
    (hr : Reachable s0 s) (v g : Nat) :
    (s.viewerGame v g).acceptedBps + (s.viewerGame v g).reservedBps ≤ 10000 := by
  have hgood : Good s := by
    induction hr with
    | refl => exact Good_inited hinit
    | step o hr ih => exact Good_next o _ ih
  exact hgood.vg_cap v g

/-- Witness for C1: from the freshly initialized demo engine, run
`createGame`, one `submitGuess` and a 9000-bps `proposeDeal` by viewer 9 on
game 1; the pair `(9, 1)` still satisfies the 10000 cap. -/
theorem claim_C1_witness :
    ((next (Op.proposeDeal 9 1 1 7 9000 0)
        (next (Op.submitGuess 7 1 "e" "p" 0)
          (next (Op.createGame 1 "k" 5) initDemoSt))).viewerGame 9 1).acceptedBps +
      ((next (Op.proposeDeal 9 1 1 7 9000 0)
        (next (Op.submitGuess 7 1 "e" "p" 0)
          (next (Op.createGame 1 "k" 5) initDemoSt))).viewerGame 9 1).reservedBps ≤ 10000 :=
  claim_C1_share_cap_invariant initDemoSt _ ⟨1, 25000, 1, 2, 3, 10, rfl⟩
    (Reachable.step _ (Reachable.step _ (Reachable.step _ Reachable.refl))) 9 1

end GuessGame
